import Mathlib

/-!
Verification of the FauxEC acoustic-echo-cancellation engine
(`js/noisy-processors/noisyFauxEC.js` of the SlidewareEngineering repository).

The JavaScript source is shallowly embedded: each strategy class becomes a Lean
structure holding its mutable fields, and each method becomes a pure function
from old state (plus the frame inputs) to new state (plus the frame outputs).
Sample values are modelled in exact arithmetic: rational numbers `ℚ` where the
source only uses `+ - * /` and comparisons, and real numbers `ℝ` where the
source calls `Math.sqrt` / `Math.exp` / `Math.pow`.  JavaScript circular-buffer
index expressions of the shape `(a - b + N) % N` are rendered as the
`ℕ`-expression `(a + N - b) % N`, which agrees with the source whenever the
JavaScript intermediate value is nonnegative (the case in every indexed loop,
as each embedding notes).  `Float32Array`s become total functions `ℕ → ℚ` (or
`ℕ → ℝ`); out-of-range reads never occur at the indices used.
-/

set_option maxHeartbeats 1000000

namespace FauxEC

/-! ## NLMSStrategy (`class NLMSStrategy`, source lines 800-943)

All arithmetic in this strategy is `+ - * /` and comparisons, so the embedding
is over `ℚ` and fully executable.  `h` is the adaptive filter, `xBuf` the
circular far-end delay line, `xBufPos` the write cursor. -/

structure NLMSConfig where
  filterLength : ℕ      -- number of taps
  stepSize : ℚ          -- NLMS step size (mu)
  epsilon : ℚ           -- regularization
  leakage : ℚ           -- leaky LMS coefficient
  minDelayMs : ℚ

/-- Default config of `NLMSStrategy.getDefaultCfg` (source lines 801-809). -/
def nlmsDefaultCfg : NLMSConfig :=
  { filterLength := 4096, stepSize := 1/2, epsilon := 1/100000000,
    leakage := 9999/10000, minDelayMs := 50 }

structure NLMSState where
  config : NLMSConfig
  h : ℕ → ℚ             -- adaptive filter coefficients
  xBuf : ℕ → ℚ          -- far-end delay line (circular)
  xBufPos : ℕ           -- current position in circular buffer
  minDelaySamples : ℕ   -- floor(sampleRate * minDelayMs / 1000)
  filterUpdates : ℕ
  maxCoeff : ℚ
  peakTap : ℕ

/-- `NLMSStrategy.initFilter` (source lines 822-828): fresh zero filter and
delay line.  `sr` is the AudioWorklet global `sampleRate`. -/
def nlmsInitFilter (sr : ℕ) (cfg : NLMSConfig) (st : NLMSState) : NLMSState :=
  { st with
    h := fun _ => 0, xBuf := fun _ => 0, xBufPos := 0,
    minDelaySamples := (⌊(sr : ℚ) * cfg.minDelayMs / 1000⌋).toNat }

/-- The direct (non-incremental) windowed far-end energy over the active tap
window `[minDelay, len)`: the loop of source lines 872-876, which the strategy
runs once at the top of every `onFrame` call, and which the spec describes as
the reference for the incremental update.  The JS index `(xBufPos - j + len) %
len` is nonnegative there because `j < len`; it equals `(pos + len - j) % len`
over `ℕ`. -/
def xPowerDirect (len minDelay : ℕ) (xBuf : ℕ → ℚ) (pos : ℕ) : ℚ :=
  ∑ j ∈ Finset.Ico minDelay len, xBuf ((pos + len - j) % len) * xBuf ((pos + len - j) % len)

/-- Per-sample loop state of `NLMSStrategy.onFrame` (source lines 878-927):
the fields the loop body mutates.  `outRev` collects `outFrame` samples in
reverse order. -/
structure NLMSFrameAcc where
  h : ℕ → ℚ
  xBuf : ℕ → ℚ
  xBufPos : ℕ
  xPower : ℚ
  outRev : List ℚ
  filterUpdates : ℕ

/-- One iteration of the per-sample loop of `NLMSStrategy.onFrame` (source
lines 878-926).  The `xPower < eps` guard (source line 904, a `continue`)
skips only the coefficient update and the `filterUpdates` increment; the
output sample was already written at source line 902, so it is kept in both
branches. -/
def nlmsSampleStep (len minDelay : ℕ) (mu leakage eps : ℚ)
    (nearV farV : ℚ) (s : NLMSFrameAcc) : NLMSFrameAcc :=
  -- value about to be overwritten: it is leaving the xPower window (line 880)
  let leavingVal := s.xBuf ((s.xBufPos + 1) % len)
  -- advance the cursor and write the new far-end sample (lines 884-885)
  let pos' := (s.xBufPos + 1) % len
  let xBuf' := Function.update s.xBuf pos' farV
  -- value entering the xPower window; incremental energy update (lines 888-889)
  let enteringVal := xBuf' ((pos' + len - minDelay) % len)
  let xPower' := s.xPower - leavingVal * leavingVal + enteringVal * enteringVal
  -- estimated echo and error (lines 892-902)
  let yHat := ∑ j ∈ Finset.Ico minDelay len, s.h j * xBuf' ((pos' + len - j) % len)
  let error := nearV - yHat
  let outRev' := error :: s.outRev
  -- leaky, energy-normalized coefficient update (lines 904-925)
  let h' := if xPower' < eps then s.h
    else fun j =>
      if minDelay ≤ j ∧ j < len
      then leakage * s.h j + (mu / xPower') * error * xBuf' ((pos' + len - j) % len)
      else s.h j
  let filterUpdates' := if xPower' < eps then s.filterUpdates else s.filterUpdates + 1
  { h := h', xBuf := xBuf', xBufPos := pos', xPower := xPower',
    outRev := outRev', filterUpdates := filterUpdates' }

/-- State of the `NLMSStrategy.onFrame` per-sample loop after processing the
first `k` samples of the frame: initial `xPower` from the direct loop (source
lines 872-876), then `k` iterations of the loop body. -/
def nlmsAfterK (st : NLMSState) (near far : ℕ → ℚ) (k : ℕ) : NLMSFrameAcc :=
  (List.range k).foldl
    (fun s i => nlmsSampleStep st.config.filterLength st.minDelaySamples
      st.config.stepSize st.config.leakage st.config.epsilon (near i) (far i) s)
    { h := st.h, xBuf := st.xBuf, xBufPos := st.xBufPos,
      xPower := xPowerDirect st.config.filterLength st.minDelaySamples st.xBuf st.xBufPos,
      outRev := [], filterUpdates := st.filterUpdates }

/-- `NLMSStrategy.onFrame` (source lines 854-942): run the per-sample loop over
the whole frame, then the periodic peak-coefficient stats scan (lines 929-941).
Returns the updated strategy state and the output frame. -/
def nlmsOnFrame (st : NLMSState) (nSamples : ℕ) (near far : ℕ → ℚ) :
    NLMSState × List ℚ :=
  let acc := nlmsAfterK st near far nSamples
  let st' := { st with h := acc.h, xBuf := acc.xBuf, xBufPos := acc.xBufPos,
                       filterUpdates := acc.filterUpdates }
  let st'' := if acc.filterUpdates % 10000 < nSamples then
      let scan := (List.range st.config.filterLength).foldl
        (fun (m : ℚ × ℕ) j => if |acc.h j| > m.1 then (|acc.h j|, j) else m) (0, 0)
      { st' with maxCoeff := scan.1, peakTap := scan.2 }
    else st'
  (st'', acc.outRev.reverse)

/-! Helper lemmas for the incremental-energy invariant (claim C3). -/

theorem natModCast_idx_shift (len m k pos : ℕ) (hk : m + k + 1 < len) :
    ((pos + 1) % len + len - (m + (k + 1))) % len = (pos + len - (m + k)) % len := by
  have h1 : (pos + 1) % len + len - (m + (k + 1))
      = (pos + 1) % len + (len - (m + (k + 1))) := by omega
  rw [h1, Nat.mod_add_mod]
  congr 1
  omega

theorem idx_ne_writePos (len m k pos : ℕ) (hk : m + k + 1 < len) :
    (pos + len - (m + k)) % len ≠ (pos + 1) % len := by
  intro heq
  have hc2 : 2 ≤ len - (m + k) := by omega
  have h1 : pos + len - (m + k) = pos + (len - (m + k)) := by omega
  rw [h1] at heq
  have hmod : (len - (m + k)) % len = 1 % len := Nat.ModEq.add_left_cancel' pos heq
  have hlen2 : 2 ≤ len := by omega
  have h1m : 1 % len = 1 := Nat.mod_eq_of_lt (by omega)
  rcases Nat.lt_or_ge (len - (m + k)) len with hlt | hge
  · rw [Nat.mod_eq_of_lt hlt, h1m] at hmod; omega
  · have hEq : len - (m + k) = len := by omega
    rw [hEq, Nat.mod_self, h1m] at hmod; omega

/-- One write step of the circular delay line moves the directly recomputed
active-window energy by exactly "minus the square of the leaving sample, plus
the square of the entering sample" — the algebraic heart of claim C3. -/
theorem xPowerDirect_step (len m : ℕ) (hm : m < len) (xBuf : ℕ → ℚ) (pos : ℕ) (v : ℚ) :
    xPowerDirect len m (Function.update xBuf ((pos + 1) % len) v) ((pos + 1) % len)
      = xPowerDirect len m xBuf pos
        - xBuf ((pos + 1) % len) * xBuf ((pos + 1) % len)
        + (Function.update xBuf ((pos + 1) % len) v) (((pos + 1) % len + len - m) % len)
          * (Function.update xBuf ((pos + 1) % len) v) (((pos + 1) % len + len - m) % len) := by
  have hN : len - m = (len - m - 1) + 1 := by omega
  rw [xPowerDirect, xPowerDirect, Finset.sum_Ico_eq_sum_range, Finset.sum_Ico_eq_sum_range,
    hN, Finset.sum_range_succ', Finset.sum_range_succ]
  have hmain : ∀ k ∈ Finset.range (len - m - 1),
      (Function.update xBuf ((pos + 1) % len) v) (((pos + 1) % len + len - (m + (k + 1))) % len)
        * (Function.update xBuf ((pos + 1) % len) v) (((pos + 1) % len + len - (m + (k + 1))) % len)
      = xBuf ((pos + len - (m + k)) % len) * xBuf ((pos + len - (m + k)) % len) := by
    intro k hk
    have hk' : m + k + 1 < len := by
      have := Finset.mem_range.mp hk; omega
    rw [natModCast_idx_shift len m k pos hk',
      Function.update_noteq (idx_ne_writePos len m k pos hk')]
  rw [Finset.sum_congr rfl hmain]
  have hzero : ((pos + 1) % len + len - (m + 0)) % len = ((pos + 1) % len + len - m) % len := by
    norm_num
  have hlast : (pos + len - (m + (len - m - 1))) % len = (pos + 1) % len := by
    congr 1
    omega
  rw [hzero, hlast]
  ring

/-- C3: In `NLMSStrategy.onFrame`, the incrementally maintained windowed energy
`xPower` (subtract the square of the sample leaving the active window, add the
square of the sample entering it) equals, after every per-sample step and in
exact arithmetic, the direct recomputation `∑ j ∈ [minDelay, L), xBuf[(xBufPos
- j) mod L]^2` over the active tap window of the circular delay line.  The
hypothesis `minDelay < L` states that the active tap window `[minDelay, L)` is
well formed (it holds for the default config: 2400 < 4096). -/
theorem nlms_xPower_eq_direct (st : NLMSState) (near far : ℕ → ℚ)
    (hm : st.minDelaySamples < st.config.filterLength) (k : ℕ) :
    (nlmsAfterK st near far k).xPower
      = xPowerDirect st.config.filterLength st.minDelaySamples
          (nlmsAfterK st near far k).xBuf (nlmsAfterK st near far k).xBufPos := by
  induction k with
  | zero => simp [nlmsAfterK]
  | succ n ih =>
    have hstep : nlmsAfterK st near far (n + 1)
        = nlmsSampleStep st.config.filterLength st.minDelaySamples
            st.config.stepSize st.config.leakage st.config.epsilon
            (near n) (far n) (nlmsAfterK st near far n) := by
      rw [nlmsAfterK, nlmsAfterK, List.range_succ, List.foldl_append, List.foldl_cons,
        List.foldl_nil]
    rw [hstep]
    simp only [nlmsSampleStep]
    rw [ih, xPowerDirect_step _ _ hm]

/-- Concrete witness data for the C3 theorem: tiny three-tap filter. -/
def nlmsWitState : NLMSState :=
  { config := { filterLength := 3, stepSize := 1/2, epsilon := 1/100000000,
                leakage := 1, minDelayMs := 50 },
    h := fun _ => 0, xBuf := fun _ => 0, xBufPos := 0,
    minDelaySamples := 1, filterUpdates := 0, maxCoeff := 0, peakTap := 0 }

def nlmsWitNear : ℕ → ℚ := fun i => if i = 0 then 1 else 2

def nlmsWitFar : ℕ → ℚ := fun i => if i = 0 then 3 else -1

theorem nlms_xPower_eq_direct_witness :
    nlmsWitState.minDelaySamples < nlmsWitState.config.filterLength ∧
    (nlmsAfterK nlmsWitState nlmsWitNear nlmsWitFar 2).xPower
      = xPowerDirect nlmsWitState.config.filterLength nlmsWitState.minDelaySamples
          (nlmsAfterK nlmsWitState nlmsWitNear nlmsWitFar 2).xBuf
          (nlmsAfterK nlmsWitState nlmsWitNear nlmsWitFar 2).xBufPos :=
  ⟨by decide, nlms_xPower_eq_direct nlmsWitState nlmsWitNear nlmsWitFar (by decide) 2⟩

/-! ## IRMeasurementHelper (`class IRMeasurementHelper`, source lines 447-679)

The measurement pipeline (`_computeIR`) uses only `+ - * /`, `Math.abs` and
comparisons, except for two diagnostic square roots: `debugRecordRms =
sqrt(recSumSq/recordLen)` (only ever compared against the near-silence
threshold `0.005`) and the crest factor `peak / sqrt(sumSq/irLen)` (display
only).  The model stores the squares instead (`debugRecordMeanSq`, `irSumSq`)
and phrases the silence test equivalently as `meanSq < 0.005^2`, which keeps
the whole helper inside `ℚ` and executable. -/

structure IRMeasState where
  irLength : ℕ
  measureSamples : ℕ
  testSignal : List ℚ
  testSignalEnergy : ℚ
  recordBuffer : ℕ → ℚ
  recordPos : ℕ
  playPos : ℕ
  ir : List ℚ
  irTrimmed : Option (List ℚ)   -- JS `null` until a measurement completes
  irDelayOffset : ℕ
  ready : Bool
  irAcquired : Bool
  peakValue : ℚ
  peakDelayMs : ℚ
  peakAtBoundary : Bool
  debugPeakSum : ℚ
  debugRecordMeanSq : ℚ        -- square of the source's `debugRecordRms`
  irSumBeforeNorm : ℚ
  irSumSq : ℚ                  -- `sumSq` of lines 624-632 (crest-factor input)

/-- Sum of squares of the recorded buffer (source lines 597-600). -/
def recSumSq (st : IRMeasState) : ℚ :=
  ∑ i ∈ Finset.range st.recordPos, st.recordBuffer i * st.recordBuffer i

/-- Mean square of the recording: the square of `debugRecordRms` (line 601). -/
def recMeanSq (st : IRMeasState) : ℚ :=
  recSumSq st / st.recordPos

/-- Deconvolution sum for lag `k` (source lines 610-617):
`sum = Σ_{n=k}^{recordLen-1} recorded[n] * testSig[n-k]` guarded by
`testIdx < testSig.length`. -/
def irDeconvSum (st : IRMeasState) (k : ℕ) : ℚ :=
  ∑ n ∈ Finset.Ico k st.recordPos,
    if n - k < st.testSignal.length
    then st.recordBuffer n * st.testSignal.getD (n - k) 0 else 0

/-- The raw impulse response `ir[k] = sum / testSignalEnergy` (line 618). -/
def irRaw (st : IRMeasState) : List ℚ :=
  (List.range st.irLength).map (fun k => irDeconvSum st k / st.testSignalEnergy)

/-- `maxSum` tracking of lines 609-621 (`debugPeakSum`). -/
def irMaxSum (st : IRMeasState) : ℚ :=
  (List.range st.irLength).foldl
    (fun m k => if |irDeconvSum st k| > |m| then irDeconvSum st k else m) 0

/-- Peak scan of lines 624-632: returns `(peakVal, peakIdx, sumSq)`. -/
def irPeakScan (st : IRMeasState) : ℚ × ℕ × ℚ :=
  (List.range st.irLength).foldl
    (fun acc i =>
      let a := |(irRaw st).getD i 0|
      let pv := if a > acc.1 then a else acc.1
      let pIdx := if a > acc.1 then i else acc.2.1
      (pv, pIdx, acc.2.2 + (irRaw st).getD i 0 * (irRaw st).getD i 0))
    (0, 0, 0)

/-- `Math.floor(sampleRate * 0.005)`: the 5 ms pre-echo margin (line 643). -/
def irPreEchoSamples (sr : ℕ) : ℕ := sr * 5 / 1000

/-- `Math.floor(sampleRate * 0.010)`: the 10 ms tail safety margin (line 651). -/
def irTailMargin (sr : ℕ) : ℕ := sr * 10 / 1000

/-- `irDelayOffset = Math.max(0, peakIdx - preEchoSamples)` (line 644);
`ℕ` subtraction is exactly the `max 0`. -/
def irOffsetOf (sr : ℕ) (st : IRMeasState) : ℕ :=
  (irPeakScan st).2.1 - irPreEchoSamples sr

/-- Tail cutoff scan of lines 647-654: walk `i` from `irLen-1` down to
`peakIdx+1` and stop at the first `|ir[i]| > 0.1 * peak`. -/
def irTailEnd (sr : ℕ) (st : IRMeasState) : ℕ :=
  let peakVal := (irPeakScan st).1
  let peakIdx := (irPeakScan st).2.1
  match ((List.range (st.irLength - 1 - peakIdx)).map (fun t => st.irLength - 1 - t)).find?
      (fun i => decide (|(irRaw st).getD i 0| > peakVal * (1/10))) with
  | some i => min st.irLength (i + irTailMargin sr)
  | none => st.irLength

/-- The trimmed slice before normalization (source lines 656-660). -/
def irTrimmedPre (sr : ℕ) (st : IRMeasState) : List ℚ :=
  (List.range (irTailEnd sr st - irOffsetOf sr st)).map
    (fun i => (irRaw st).getD (irOffsetOf sr st + i) 0)

/-- `irL1`, the pre-normalization L1 mass of the trimmed slice (lines 664-668). -/
def irPreL1 (sr : ℕ) (st : IRMeasState) : ℚ :=
  ((irTrimmedPre sr st).map (fun x => |x|)).sum

/-- `IRMeasurementHelper._computeIR` (source lines 590-678).  The silence test
`debugRecordRms < .005` is phrased on the stored square:
`sqrt(meanSq) < 0.005 ↔ meanSq < 1/40000` since both sides are nonnegative. -/
def computeIR (sr : ℕ) (st : IRMeasState) : IRMeasState :=
  if recMeanSq st < 1/40000 then
    { st with debugRecordMeanSq := recMeanSq st, irTrimmed := some [], ready := true }
  else
    let peak := irPeakScan st
    let irL1 := irPreL1 sr st
    let trimmed := if irL1 > 1/1000000
      then (irTrimmedPre sr st).map (fun x => x * (1 / irL1))
      else irTrimmedPre sr st
    { st with
      debugRecordMeanSq := recMeanSq st,
      debugPeakSum := irMaxSum st,
      ir := irRaw st,
      peakValue := peak.1,
      peakDelayMs := (peak.2.1 : ℚ) / (sr : ℚ) * 1000,
      irSumSq := peak.2.2,
      peakAtBoundary := decide ((peak.2.1 : ℚ) > (st.irLength : ℚ) * (95/100)),
      irDelayOffset := irOffsetOf sr st,
      irTrimmed := some trimmed,
      irSumBeforeNorm := irL1,
      ready := true,
      irAcquired := true }

/-- `IRMeasurementHelper.onFrame` (source lines 566-588): play the test signal,
record the near end, and run `_computeIR` once the measurement is full.
Returns the new state and the test-signal output frame (the caller pre-zeroes
that buffer, so positions the loop skips stay `0`). -/
def irMeasOnFrame (sr : ℕ) (st : IRMeasState) (nSamples : ℕ) (near : ℕ → ℚ) :
    IRMeasState × List ℚ :=
  if st.ready = true then (st, List.replicate nSamples 0)
  else
    let acc := (List.range nSamples).foldl
      (fun (a : (ℕ → ℚ) × ℕ × ℕ × List ℚ) i =>
        if st.measureSamples ≤ a.2.1 then (a.1, a.2.1, a.2.2.1, 0 :: a.2.2.2)
        else
          let t := if a.2.2.1 < st.testSignal.length then st.testSignal.getD a.2.2.1 0 else 0
          (Function.update a.1 a.2.1 (near i), a.2.1 + 1, a.2.2.1 + 1, t :: a.2.2.2))
      (st.recordBuffer, st.recordPos, st.playPos, [])
    let st' := { st with recordBuffer := acc.1, recordPos := acc.2.1, playPos := acc.2.2.1 }
    let st'' := if st.measureSamples ≤ st'.recordPos then computeIR sr st' else st'
    (st'', acc.2.2.2.reverse)

/-- C6: if the recorded buffer's RMS is below the fixed near-silence threshold
`0.005`, `_computeIR` sets the trimmed impulse response to the empty vector and
marks the measurement ready immediately; every other field (raw `ir`, peak
data, offsets, `irAcquired`, `irSumBeforeNorm`) is untouched — no
deconvolution, peak analysis, trimming or normalization happens, and the
function is total (no exception).  `0 < recordPos` keeps the mean square well
defined (in JS a zero-length recording would make the RMS `NaN`). -/
theorem computeIR_silent (sr : ℕ) (st : IRMeasState)
    (hpos : 0 < st.recordPos) (hsilent : recMeanSq st < 1/40000) :
    computeIR sr st
      = { st with debugRecordMeanSq := recMeanSq st, irTrimmed := some [], ready := true } := by
  have hkeep := hpos
  rw [computeIR, if_pos hsilent]

/-- Concrete all-zero recording used to witness C6. -/
def irWitSilent : IRMeasState :=
  { irLength := 2, measureSamples := 3, testSignal := [1], testSignalEnergy := 1,
    recordBuffer := fun _ => 0, recordPos := 3, playPos := 3, ir := [],
    irTrimmed := none, irDelayOffset := 0, ready := false, irAcquired := false,
    peakValue := 0, peakDelayMs := 0, peakAtBoundary := false, debugPeakSum := 0,
    debugRecordMeanSq := 0, irSumBeforeNorm := 0, irSumSq := 0 }

theorem computeIR_silent_witness :
    0 < irWitSilent.recordPos ∧ recMeanSq irWitSilent < 1/40000 ∧
    computeIR 48000 irWitSilent
      = { irWitSilent with debugRecordMeanSq := recMeanSq irWitSilent,
                           irTrimmed := some [], ready := true } :=
  ⟨by decide,
   by norm_num [recMeanSq, recSumSq, irWitSilent, Finset.sum_range_succ],
   computeIR_silent 48000 irWitSilent (by decide)
     (by norm_num [recMeanSq, recSumSq, irWitSilent, Finset.sum_range_succ])⟩

theorem list_abs_sum_mul (l : List ℚ) (c : ℚ) :
    ((l.map (fun x => x * c)).map (fun x => |x|)).sum
      = ((l.map (fun x => |x|)).sum) * |c| := by
  induction l with
  | nil => simp
  | cons x xs ih => simp only [List.map_cons, List.sum_cons, abs_mul, ih, add_mul]

/-- C5: whenever `_computeIR` completes a non-silent measurement and the
trimmed impulse response's pre-normalization L1 mass exceeds `1e-6`, the
stored trimmed coefficient vector is the L1-normalized slice and its absolute
values sum to exactly `1` (exact arithmetic). -/
theorem computeIR_l1_normalized (sr : ℕ) (st : IRMeasState)
    (hns : ¬ recMeanSq st < 1/40000) (hl1 : irPreL1 sr st > 1/1000000) :
    (computeIR sr st).irTrimmed
        = some ((irTrimmedPre sr st).map (fun x => x * (1 / irPreL1 sr st))) ∧
    (((computeIR sr st).irTrimmed.getD []).map (fun x => |x|)).sum = 1 := by
  have hpos : 0 < irPreL1 sr st := lt_trans (by norm_num) hl1
  have htr : (computeIR sr st).irTrimmed
      = some ((irTrimmedPre sr st).map (fun x => x * (1 / irPreL1 sr st))) := by
    rw [computeIR, if_neg hns]
    simp only [if_pos hl1]
  refine ⟨htr, ?_⟩
  rw [htr]
  simp only [Option.getD_some]
  have hS : irPreL1 sr st = ((irTrimmedPre sr st).map (fun x => |x|)).sum := rfl
  rw [list_abs_sum_mul, abs_of_pos (one_div_pos.mpr hpos), ← hS, mul_one_div,
    div_self (ne_of_gt hpos)]

/-- Concrete non-silent recording used to witness C5: one-tap impulse test
signal, single recorded sample of value 1, sample rate 200. -/
def irWitLoud : IRMeasState :=
  { irLength := 1, measureSamples := 1, testSignal := [1], testSignalEnergy := 1,
    recordBuffer := fun _ => 1, recordPos := 1, playPos := 1, ir := [],
    irTrimmed := none, irDelayOffset := 0, ready := false, irAcquired := false,
    peakValue := 0, peakDelayMs := 0, peakAtBoundary := false, debugPeakSum := 0,
    debugRecordMeanSq := 0, irSumBeforeNorm := 0, irSumSq := 0 }

theorem irWitLoud_notSilent : ¬ recMeanSq irWitLoud < 1/40000 := by
  norm_num [recMeanSq, recSumSq, irWitLoud, Finset.sum_range_succ]

theorem irWitLoud_preL1 : irPreL1 200 irWitLoud = 1 := by
  norm_num [irPreL1, irTrimmedPre, irTailEnd, irOffsetOf, irPeakScan, irRaw, irDeconvSum,
    irPreEchoSamples, irTailMargin, irWitLoud, Finset.sum_Ico_eq_sum_range,
    Finset.sum_range_succ, List.range_succ]

theorem computeIR_l1_normalized_witness :
    ¬ recMeanSq irWitLoud < 1/40000 ∧ irPreL1 200 irWitLoud > 1/1000000 ∧
    (((computeIR 200 irWitLoud).irTrimmed.getD []).map (fun x => |x|)).sum = 1 :=
  ⟨irWitLoud_notSilent, by rw [irWitLoud_preL1]; norm_num,
    (computeIR_l1_normalized 200 irWitLoud irWitLoud_notSilent
      (by rw [irWitLoud_preL1]; norm_num)).2⟩

/-! ## RIRStrategy (`class RIRStrategy`, source lines 681-798) -/

structure RIRConfig where
  irLength : ℕ
  measurementDurationMs : ℚ
  testSignalType : String
  diracPulseWidth : ℕ
  mlsOrder : ℕ
  echoAttenuation : ℚ

/-- Default config of `RIRStrategy.getDefaultCfg` (source lines 682-691). -/
def rirDefaultCfg : RIRConfig :=
  { irLength := 20480, measurementDurationMs := 1000, testSignalType := "no_rir",
    diracPulseWidth := 48, mlsOrder := 14, echoAttenuation := 5/2 }

structure RIRState where
  config : RIRConfig
  rir : Option IRMeasState  -- `none` models `IRMeasurementHelperMock` (no `ready` field:
                            -- reading it yields `undefined`, which is falsy)
  farEndDelayLine : ℕ → ℚ
  farEndDelayLineLen : ℕ
  farEndDelayPos : ℕ

/-- One iteration of the sparse-FIR loop of `RIRStrategy.onFrame` (source
lines 775-796): write the far-end sample at the advanced cursor, convolve the
trimmed IR against the delay line, subtract the attenuated echo estimate.
The JS read index `(pos - irDelayOffset - k + 5*L) % L` is nonnegative and
equals `(pos + 5*L - off - k) % L` over `ℕ`. -/
def rirFirStep (atten : ℚ) (L off : ℕ) (irT : List ℚ) (near far : ℕ → ℚ)
    (a : (ℕ → ℚ) × ℕ × List ℚ) (i : ℕ) : (ℕ → ℚ) × ℕ × List ℚ :=
  let pos' := (a.2.1 + 1) % L
  let line' := Function.update a.1 pos' (far i)
  let echo := (∑ k ∈ Finset.range irT.length,
      irT.getD k 0 * line' ((pos' + 5 * L - off - k) % L)) * atten
  (line', pos', (near i - echo) :: a.2.2)

/-- `RIRStrategy.onFrame` (source lines 753-797).  Returns
`(state, outFrame, testSignalFrame)`. -/
def rirOnFrame (sr : ℕ) (st : RIRState) (nSamples : ℕ) (near far : ℕ → ℚ) :
    RIRState × List ℚ × List ℚ :=
  match st.rir with
  | none =>
      -- mock helper: `ready` is undefined/falsy forever, its onFrame is a no-op;
      -- the output stays muted
      (st, List.replicate nSamples 0, List.replicate nSamples 0)
  | some m =>
      if m.ready = true then
        let irT := m.irTrimmed.getD []
        let acc := (List.range nSamples).foldl
          (rirFirStep st.config.echoAttenuation st.farEndDelayLineLen m.irDelayOffset
            irT near far)
          (st.farEndDelayLine, st.farEndDelayPos, [])
        ({ st with farEndDelayLine := acc.1, farEndDelayPos := acc.2.1 },
         acc.2.2.reverse, List.replicate nSamples 0)
      else
        let res := irMeasOnFrame sr m nSamples near
        -- initialize the FIR delay line when the measurement just completed
        -- (source lines 760-763)
        let st' := if res.1.ready = true then
            { st with rir := some res.1, farEndDelayLine := fun _ => 0,
                      farEndDelayLineLen := res.1.ir.length, farEndDelayPos := 0 }
          else { st with rir := some res.1 }
        (st', List.replicate nSamples 0, res.2)

theorem rirFirStep_nil_out (atten : ℚ) (L off : ℕ) (near far : ℕ → ℚ) :
    ∀ (l : List ℕ) (line : ℕ → ℚ) (pos : ℕ) (rev : List ℚ),
      (l.foldl (rirFirStep atten L off [] near far) (line, pos, rev)).2.2
        = (l.map near).reverse ++ rev := by
  intro l
  induction l with
  | nil => intro line pos rev; simp
  | cons x xs ih =>
      intro line pos rev
      simp only [List.foldl_cons, List.map_cons, List.reverse_cons]
      rw [rirFirStep]
      simp only [List.length_nil, Finset.range_zero, Finset.sum_empty, zero_mul, sub_zero]
      rw [ih]
      simp

/-- C10: once an RIR measurement has completed with the empty trimmed impulse
response (silent measurement), `RIRStrategy.onFrame` outputs exactly the
near-end frame: the sparse convolution over zero trimmed coefficients yields
an echo estimate of `0` regardless of `echoAttenuation`, so the strategy is an
exact passthrough (no muting, no exception). -/
theorem rir_empty_ir_passthrough (sr : ℕ) (st : RIRState) (m : IRMeasState)
    (hm : st.rir = some m) (hready : m.ready = true) (hempty : m.irTrimmed = some [])
    (nSamples : ℕ) (near far : ℕ → ℚ) :
    (rirOnFrame sr st nSamples near far).2.1 = (List.range nSamples).map near := by
  rw [rirOnFrame, hm]
  simp only [hready, if_pos rfl, hempty, Option.getD_some]
  rw [rirFirStep_nil_out]
  simp

/-- Concrete post-silent-measurement state used to witness C10. -/
def rirWitMeas : IRMeasState :=
  { irWitSilent with irTrimmed := some [], ready := true }

def rirWitState : RIRState :=
  { config := { rirDefaultCfg with irLength := 4, echoAttenuation := 7 },
    rir := some rirWitMeas,
    farEndDelayLine := fun _ => 0, farEndDelayLineLen := 4, farEndDelayPos := 0 }

def rirWitNear : ℕ → ℚ := fun i => if i = 0 then 11 else 13

def rirWitFar : ℕ → ℚ := fun _ => 5

theorem rir_empty_ir_passthrough_witness :
    rirWitState.rir = some rirWitMeas ∧ rirWitMeas.ready = true ∧
    rirWitMeas.irTrimmed = some [] ∧
    (rirOnFrame 48000 rirWitState 2 rirWitNear rirWitFar).2.1
      = (List.range 2).map rirWitNear :=
  ⟨rfl, rfl, rfl,
    rir_empty_ir_passthrough 48000 rirWitState rirWitMeas rfl rfl rfl 2 rirWitNear rirWitFar⟩

/-! ## NoisyFauxECProcessor control messages (source lines 947-1066)

The message handler owns the active-mode string and calls strategies'
`onSelected` hooks.  The model tracks the control-relevant state: the mode, a
per-strategy count of `onSelected` invocations, the `console.error` log, and
`RIRStrategy`'s config (the one strategy whose `onMessage` handler can itself
call `onSelected`: a `rir_config` payload that changes any key other than
`echoAttenuation` restarts the measurement, source lines 724-738).  The
`timeAligned`, `halfDuplex` and `nlms` payload handlers (source lines
386-390, 291-295 and 830-843) mutate only their own strategy's config/filter
state and never call `onSelected`.

`this.strategies` is an object literal, so `this.strategies[v]` is a
prototype-chain lookup: it is truthy when `v` is one of the eight own keys
*or* a property inherited from `Object.prototype` (every such property —
`constructor`, `toString`, ... — holds a truthy built-in).  Calling
`.onSelected()` on such an inherited member throws a `TypeError`, which the
model records in an explicit `threw` flag. -/

/-- The strategy registry's own keys (source lines 987-996). -/
def strategyNames : List String :=
  ["passthrough", "silenceMic", "testTone", "naiveSubtract",
   "halfDuplex", "timeAlignedSubtract", "rir", "lms"]

/-- The property names an object literal inherits from `Object.prototype`;
each holds a truthy value (a built-in function, or the prototype object
itself for `__proto__`).  `this.strategies[v]` is truthy exactly when `v` is
an own key or one of these. -/
def objectProtoNames : List String :=
  ["constructor", "hasOwnProperty", "isPrototypeOf", "propertyIsEnumerable",
   "toLocaleString", "toString", "valueOf", "__proto__",
   "__defineGetter__", "__defineSetter__", "__lookupGetter__", "__lookupSetter__"]

structure ProcCtrlState where
  mode : String
  selCount : String → ℕ   -- number of onSelected invocations per strategy
  errors : List String     -- console.error log
  rirConfig : RIRConfig    -- `strategies.rir.config` (its onMessage can fire onSelected)

/-- Initial control state of the processor constructor (source lines 950 and
693-695: `RIRStrategy` starts with its default config). -/
def procCtrlInit : ProcCtrlState :=
  { mode := "passthrough", selCount := fun _ => 0, errors := [],
    rirConfig := rirDefaultCfg }

/-- Outcome of processing one control message: the state afterwards, and
whether a `TypeError` escaped the handler (calling `.onSelected()` on a
member inherited from `Object.prototype`). -/
structure CtrlOutcome where
  state : ProcCtrlState
  threw : Bool

/-- `setMode` handling (source lines 1012-1020).  `!this.strategies[value]`
is the prototype-chain truthiness test: a name that is neither an own key nor
inherited is reported via `console.error` and ignored; a registered name
switches the mode, firing `onSelected` only on an actual change; an inherited
`Object.prototype` name passes the test, so `this.mode` is reassigned and the
`.onSelected()` call on the inherited member throws. -/
def switchMode (st : ProcCtrlState) (v : String) : ProcCtrlState :=
  { st with mode := v, selCount := Function.update st.selCount v (st.selCount v + 1) }

def handleSetMode (st : ProcCtrlState) (v : String) : CtrlOutcome :=
  if v ∉ strategyNames ∧ v ∉ objectProtoNames then
    { state := { st with errors := st.errors ++ [v] }, threw := false }
  else if st.mode ≠ v then
    if v ∈ strategyNames then
      { state := switchMode st v, threw := false }
    else
      -- `this.mode = value` has already happened when
      -- `this.strategies[value].onSelected()` throws
      { state := { st with mode := v }, threw := true }
  else
    { state := st, threw := false }

/-- A `rir_config` payload over the known config keys (`none` = key absent). -/
structure RIRConfigPatch where
  irLength : Option ℕ := none
  measurementDurationMs : Option ℚ := none
  testSignalType : Option String := none
  diracPulseWidth : Option ℕ := none
  mlsOrder : Option ℕ := none
  echoAttenuation : Option ℚ := none

/-- One entry of the `changedKeys` filter of source line 727: a present key
whose value differs from the current one. -/
def patchKeyChanged {α : Type} [DecidableEq α] (cur : α) : Option α → Bool
  | some v => decide (v ≠ cur)
  | none => false

/-- `needsReset` of `RIRStrategy.onMessage` (source lines 727-732): some key
other than `echoAttenuation` actually changed value. -/
def rirPatchNeedsReset (c : RIRConfig) (p : RIRConfigPatch) : Bool :=
  patchKeyChanged c.irLength p.irLength
    || patchKeyChanged c.measurementDurationMs p.measurementDurationMs
    || patchKeyChanged c.testSignalType p.testSignalType
    || patchKeyChanged c.diracPulseWidth p.diracPulseWidth
    || patchKeyChanged c.mlsOrder p.mlsOrder

/-- `Object.assign(this.config, value)` (source line 728). -/
def rirApplyPatch (c : RIRConfig) (p : RIRConfigPatch) : RIRConfig :=
  { irLength := p.irLength.getD c.irLength,
    measurementDurationMs := p.measurementDurationMs.getD c.measurementDurationMs,
    testSignalType := p.testSignalType.getD c.testSignalType,
    diracPulseWidth := p.diracPulseWidth.getD c.diracPulseWidth,
    mlsOrder := p.mlsOrder.getD c.mlsOrder,
    echoAttenuation := p.echoAttenuation.getD c.echoAttenuation }

/-- `RIRStrategy.onMessage('rir_config', ...)` (source lines 724-738) at the
control level: the changed keys are computed against the pre-assignment
config, the patch is applied, and if any non-`echoAttenuation` key changed
the measurement restarts via `this.onSelected()` (line 735) — an `onSelected`
invocation with no mode change. -/
def rirDispatchConfig (st : ProcCtrlState) (p : RIRConfigPatch) : ProcCtrlState :=
  let needsReset := rirPatchNeedsReset st.rirConfig p
  let st2 := { st with rirConfig := rirApplyPatch st.rirConfig p }
  if needsReset = true then
    { st2 with selCount := Function.update st2.selCount "rir" (st2.selCount "rir" + 1) }
  else st2

/-- A `setConfigs` message: the optional `mode` plus the per-strategy config
payloads.  The `timeAligned`, `halfDuplex` and `nlms` payloads never invoke
`onSelected`, so presence flags suffice; the `rir` payload is modelled in
full because it can restart the measurement. -/
structure SetConfigsMsg where
  mode : Option String := none
  timeAligned : Bool := false
  halfDuplex : Bool := false
  rir : Option RIRConfigPatch := none
  nlms : Bool := false

/-- `setConfigs` handling (source lines 1000-1011): first the mode step
(`if (mode && this.strategies[mode] && this.mode !== mode)` — falsy or
non-truthy names are silently skipped, registered names switch and fire
`onSelected`, inherited `Object.prototype` names reassign the mode and
throw), then the config dispatch of lines 1008-1011; a throw in the mode step
prevents the dispatch from running. -/
def handleSetConfigs (st : ProcCtrlState) (msg : SetConfigsMsg) : CtrlOutcome :=
  let step1 : CtrlOutcome := match msg.mode with
    | some m =>
        if m ≠ "" ∧ (m ∈ strategyNames ∨ m ∈ objectProtoNames) ∧ st.mode ≠ m then
          if m ∈ strategyNames then
            { state := switchMode st m, threw := false }
          else
            { state := { st with mode := m }, threw := true }
        else { state := st, threw := false }
    | none => { state := st, threw := false }
  if step1.threw = true then step1
  else
    match msg.rir with
    | some p => { state := rirDispatchConfig step1.state p, threw := false }
    | none => step1

/-- The `setConfigs` message of the C7 counterexample: it names the active
strategy and carries a `rir` payload changing `mlsOrder` (14 → 16). -/
def c7CexMsg : SetConfigsMsg :=
  { mode := some "passthrough", rir := some { mlsOrder := some 16 } }

/-- C7 counterexample: a `setConfigs` message naming the currently active
strategy (`"passthrough"`) with a `rir` payload that changes a
non-`echoAttenuation` key leaves the mode unchanged but *does* invoke
`RIRStrategy.onSelected` (the measurement restart of source lines 727-736),
refuting the claim that such a message "does not invoke any onSelected
hook". -/
theorem setConfigs_same_mode_counterexample :
    c7CexMsg.mode = some procCtrlInit.mode ∧
    (handleSetConfigs procCtrlInit c7CexMsg).state.mode = procCtrlInit.mode ∧
    (handleSetConfigs procCtrlInit c7CexMsg).state.selCount "rir"
      = procCtrlInit.selCount "rir" + 1 := by
  refine ⟨rfl, ?_, ?_⟩ <;> decide

/-- C7 (amended): a `setMode` naming the already-active strategy invokes no
`onSelected` hook and leaves the mode unchanged, and naming a different
registered strategy switches the mode and fires exactly that strategy's hook
exactly once per actual transition (selecting away and back fires it once per
leg).  The mode step of `setConfigs` behaves identically; however,
`setConfigs` additionally dispatches its config payloads after the mode step,
and a `rir` payload changing any key other than `echoAttenuation` invokes
`RIRStrategy.onSelected` (a measurement restart) exactly once even when the
mode did not change — so a `setConfigs` naming the active strategy avoids
every `onSelected` hook only when its `rir` payload is absent or changes
nothing besides `echoAttenuation`. -/
theorem setMode_onSelected_per_transition :
    (∀ (st : ProcCtrlState) (v : String), v ∈ strategyNames → v = st.mode →
       handleSetMode st v = { state := st, threw := false }) ∧
    (∀ (st : ProcCtrlState) (v : String), v ∈ strategyNames → v ≠ st.mode →
       (handleSetMode st v).threw = false ∧
       (handleSetMode st v).state.mode = v ∧
       (handleSetMode st v).state.selCount v = st.selCount v + 1 ∧
       ∀ w, w ≠ v → (handleSetMode st v).state.selCount w = st.selCount w) ∧
    (∀ (st : ProcCtrlState) (m : String) (p? : Option RIRConfigPatch),
       m ∈ strategyNames → m = st.mode →
       (match p? with
        | none => True
        | some p => rirPatchNeedsReset st.rirConfig p = false) →
       (handleSetConfigs st { mode := some m, rir := p? }).threw = false ∧
       (handleSetConfigs st { mode := some m, rir := p? }).state.mode = st.mode ∧
       (handleSetConfigs st { mode := some m, rir := p? }).state.selCount
         = st.selCount) ∧
    (∀ (st : ProcCtrlState) (m : String), m ∈ strategyNames → m ≠ "" → m ≠ st.mode →
       (handleSetConfigs st { mode := some m }).threw = false ∧
       (handleSetConfigs st { mode := some m }).state.mode = m ∧
       (handleSetConfigs st { mode := some m }).state.selCount m
         = st.selCount m + 1 ∧
       ∀ w, w ≠ m →
         (handleSetConfigs st { mode := some m }).state.selCount w = st.selCount w) ∧
    (∀ (st : ProcCtrlState) (m : String) (p : RIRConfigPatch),
       m ∈ strategyNames → m = st.mode →
       rirPatchNeedsReset st.rirConfig p = true →
       (handleSetConfigs st { mode := some m, rir := some p }).threw = false ∧
       (handleSetConfigs st { mode := some m, rir := some p }).state.mode = st.mode ∧
       (handleSetConfigs st { mode := some m, rir := some p }).state.selCount "rir"
         = st.selCount "rir" + 1 ∧
       ∀ w, w ≠ "rir" →
         (handleSetConfigs st { mode := some m, rir := some p }).state.selCount w
           = st.selCount w) ∧
    (∀ (st : ProcCtrlState) (b : String), b ∈ strategyNames → st.mode ∈ strategyNames →
       b ≠ st.mode →
       (handleSetMode (handleSetMode st b).state st.mode).state.mode = st.mode ∧
       (handleSetMode (handleSetMode st b).state st.mode).state.selCount st.mode
         = st.selCount st.mode + 1 ∧
       (handleSetMode (handleSetMode st b).state st.mode).state.selCount b
         = st.selCount b + 1) := by
  refine ⟨?_, ?_, ?_, ?_, ?_, ?_⟩
  · intro st v hv heq
    simp [handleSetMode, hv, heq.symm]
  · intro st v hv hne
    have hmods : st.mode ≠ v := fun h => hne h.symm
    refine ⟨?_, ?_, ?_, ?_⟩
    · simp [handleSetMode, switchMode, hv, hmods]
    · simp [handleSetMode, switchMode, hv, hmods]
    · simp [handleSetMode, switchMode, hv, hmods, Function.update_same]
    · intro w hw
      simp [handleSetMode, switchMode, hv, hmods, Function.update_noteq hw]
  · intro st m p? hm heq hp
    have hcond : ¬ (m ≠ "" ∧ (m ∈ strategyNames ∨ m ∈ objectProtoNames) ∧ st.mode ≠ m) := by
      intro h
      exact h.2.2 heq.symm
    cases p? with
    | none => refine ⟨?_, ?_, ?_⟩ <;> simp [handleSetConfigs, hcond]
    | some p =>
        refine ⟨?_, ?_, ?_⟩ <;>
          simp [handleSetConfigs, hcond, rirDispatchConfig, hp]
  · intro st m hm hne hmode
    have hmods : st.mode ≠ m := fun h => hmode h.symm
    have hcond : m ≠ "" ∧ (m ∈ strategyNames ∨ m ∈ objectProtoNames) ∧ st.mode ≠ m :=
      ⟨hne, Or.inl hm, hmods⟩
    refine ⟨?_, ?_, ?_, ?_⟩
    · simp [handleSetConfigs, switchMode, hcond, hm]
    · simp [handleSetConfigs, switchMode, hcond, hm]
    · simp [handleSetConfigs, switchMode, hcond, hm, Function.update_same]
    · intro w hw
      simp [handleSetConfigs, switchMode, hcond, hm, Function.update_noteq hw]
  · intro st m p hm heq hp
    have hcond : ¬ (m ≠ "" ∧ (m ∈ strategyNames ∨ m ∈ objectProtoNames) ∧ st.mode ≠ m) := by
      intro h
      exact h.2.2 heq.symm
    refine ⟨?_, ?_, ?_, ?_⟩
    · simp [handleSetConfigs, hcond, rirDispatchConfig, hp]
    · simp [handleSetConfigs, hcond, rirDispatchConfig, hp]
    · simp [handleSetConfigs, hcond, rirDispatchConfig, hp]
    · intro w hw
      simp [handleSetConfigs, hcond, rirDispatchConfig, hp, Function.update_noteq hw]
  · intro st b hb hmode hne
    have hmodb : st.mode ≠ b := fun h => hne h.symm
    have h1 : handleSetMode st b = { state := switchMode st b, threw := false } := by
      simp [handleSetMode, hb, hmodb]
    refine ⟨?_, ?_, ?_⟩
    · rw [h1]
      simp [handleSetMode, switchMode, hmode, hne]
    · rw [h1]
      simp [handleSetMode, switchMode, hmode, hne,
        Function.update_noteq (fun h : st.mode = b => hmodb h)]
    · rw [h1]
      simp [handleSetMode, switchMode, hmode, hne, Function.update_noteq hne,
        Function.update_same]

theorem setMode_onSelected_per_transition_witness :
    ("rir" ∈ strategyNames ∧ "passthrough" ∈ strategyNames ∧
      "rir" ≠ procCtrlInit.mode ∧ "passthrough" = procCtrlInit.mode ∧
      rirPatchNeedsReset procCtrlInit.rirConfig { mlsOrder := some 16 } = true) ∧
    handleSetMode procCtrlInit "passthrough" = { state := procCtrlInit, threw := false } ∧
    (handleSetMode procCtrlInit "rir").state.mode = "rir" ∧
    (handleSetMode procCtrlInit "rir").state.selCount "rir"
      = procCtrlInit.selCount "rir" + 1 ∧
    (handleSetConfigs procCtrlInit { mode := some "passthrough" }).state.selCount
      = procCtrlInit.selCount ∧
    (handleSetConfigs procCtrlInit
        { mode := some "passthrough", rir := some { mlsOrder := some 16 } }).state.selCount
        "rir"
      = procCtrlInit.selCount "rir" + 1 ∧
    (handleSetMode (handleSetMode procCtrlInit "rir").state
        procCtrlInit.mode).state.selCount procCtrlInit.mode
      = procCtrlInit.selCount procCtrlInit.mode + 1 :=
  ⟨⟨by decide, by decide, by decide, by decide, by decide⟩,
   setMode_onSelected_per_transition.1 procCtrlInit "passthrough" (by decide) (by decide),
   (setMode_onSelected_per_transition.2.1 procCtrlInit "rir" (by decide) (by decide)).2.1,
   (setMode_onSelected_per_transition.2.1 procCtrlInit "rir" (by decide) (by decide)).2.2.1,
   (setMode_onSelected_per_transition.2.2.1 procCtrlInit "passthrough" none
      (by decide) (by decide) trivial).2.2,
   (setMode_onSelected_per_transition.2.2.2.2.1 procCtrlInit "passthrough"
      { mlsOrder := some 16 } (by decide) (by decide) (by decide)).2.2.1,
   (setMode_onSelected_per_transition.2.2.2.2.2 procCtrlInit "rir" (by decide) (by decide)
      (by decide)).2.1⟩

/-- C8 counterexample: `"constructor"` is not in the strategy registry, yet
`setMode("constructor")` neither logs an error nor leaves the state alone:
`this.strategies["constructor"]` is the truthy inherited
`Object.prototype.constructor`, so the handler reassigns `this.mode` to the
bogus name and then throws a `TypeError` calling its undefined `.onSelected`. -/
theorem setMode_unknown_counterexample :
    "constructor" ∉ strategyNames ∧
    ¬ ((handleSetMode procCtrlInit "constructor").state.mode = procCtrlInit.mode ∧
       (handleSetMode procCtrlInit "constructor").threw = false) ∧
    (handleSetMode procCtrlInit "constructor").state.errors = procCtrlInit.errors := by
  refine ⟨by decide, ?_, by decide⟩
  decide

/-- C8 (amended): a `setMode` naming a string that is neither a registered
strategy nor a property inherited from `Object.prototype` is reported via
`console.error` and otherwise ignored: the mode and every `onSelected` count
are unchanged and no exception escapes.  A name inherited from
`Object.prototype` (e.g. `"constructor"`), although not in the registry,
instead passes the `!this.strategies[value]` truthiness test: nothing is
logged, the mode is reassigned to the bogus name, no `onSelected` hook runs,
and a `TypeError` escapes the handler. -/
theorem setMode_unknown_ignored :
    (∀ (st : ProcCtrlState) (v : String), v ∉ strategyNames → v ∉ objectProtoNames →
       (handleSetMode st v).state.mode = st.mode ∧
       (handleSetMode st v).state.selCount = st.selCount ∧
       (handleSetMode st v).state.errors = st.errors ++ [v] ∧
       (handleSetMode st v).threw = false) ∧
    (∀ (st : ProcCtrlState) (v : String), v ∉ strategyNames → v ∈ objectProtoNames →
       v ≠ st.mode →
       (handleSetMode st v).state.mode = v ∧
       (handleSetMode st v).state.selCount = st.selCount ∧
       (handleSetMode st v).state.errors = st.errors ∧
       (handleSetMode st v).threw = true) := by
  constructor
  · intro st v hv hp
    refine ⟨?_, ?_, ?_, ?_⟩ <;> simp [handleSetMode, hv, hp]
  · intro st v hv hp hne
    have hmods : st.mode ≠ v := fun h => hne h.symm
    refine ⟨?_, ?_, ?_, ?_⟩ <;> simp [handleSetMode, hv, hp, hmods]

theorem setMode_unknown_ignored_witness :
    ("bogus" ∉ strategyNames ∧ "bogus" ∉ objectProtoNames ∧
      "constructor" ∉ strategyNames ∧ "constructor" ∈ objectProtoNames ∧
      "constructor" ≠ procCtrlInit.mode) ∧
    ((handleSetMode procCtrlInit "bogus").state.mode = procCtrlInit.mode ∧
      (handleSetMode procCtrlInit "bogus").state.errors
        = procCtrlInit.errors ++ ["bogus"] ∧
      (handleSetMode procCtrlInit "bogus").threw = false) ∧
    ((handleSetMode procCtrlInit "constructor").state.mode = "constructor" ∧
      (handleSetMode procCtrlInit "constructor").threw = true) :=
  ⟨⟨by decide, by decide, by decide, by decide, by decide⟩,
   ⟨(setMode_unknown_ignored.1 procCtrlInit "bogus" (by decide) (by decide)).1,
    (setMode_unknown_ignored.1 procCtrlInit "bogus" (by decide) (by decide)).2.2.1,
    (setMode_unknown_ignored.1 procCtrlInit "bogus" (by decide) (by decide)).2.2.2⟩,
   ⟨(setMode_unknown_ignored.2 procCtrlInit "constructor" (by decide) (by decide)
      (by decide)).1,
    (setMode_unknown_ignored.2 procCtrlInit "constructor" (by decide) (by decide)
      (by decide)).2.2.2⟩⟩

/-! ## HalfDuplexStrategy (`class HalfDuplexStrategy`, source lines 274-337)

RMS, attack/decay smoothing and the dB threshold use `Math.sqrt`, `Math.exp`
and `Math.pow`, so this strategy is embedded over `ℝ`. -/

structure HalfDuplexConfig where
  attackMs : ℝ
  decayMs : ℝ
  thresholdDb : ℝ

/-- Default config of `HalfDuplexStrategy.getDefaultCfg` (source lines 275-281). -/
def halfDuplexDefaultCfg : HalfDuplexConfig :=
  { attackMs := 10, decayMs := 200, thresholdDb := -20 }

structure HalfDuplexState where
  config : HalfDuplexConfig
  farEndLevel : ℝ
  gatedFrames : ℕ
  gated : Bool

/-- The exponentially smoothed far-end envelope after one frame (source lines
306-318): frame RMS, attack or decay coefficient `1 - exp(-frameTime/τ)`, and
the first-order smoothing update. -/
noncomputable def hdEnvelope (sr : ℕ) (st : HalfDuplexState) (nSamples : ℕ)
    (far : ℕ → ℝ) : ℝ :=
  let frameTime : ℝ := (nSamples : ℝ) / (sr : ℝ)
  let rms := Real.sqrt ((∑ i ∈ Finset.range nSamples, far i * far i) / (nSamples : ℝ))
  let coeff := if st.farEndLevel < rms
    then 1 - Real.exp (-frameTime / (st.config.attackMs / 1000))
    else 1 - Real.exp (-frameTime / (st.config.decayMs / 1000))
  st.farEndLevel + coeff * (rms - st.farEndLevel)

open Classical in
/-- `HalfDuplexStrategy.onFrame` (source lines 305-336).  Returns the new
state, the output frame, and the `gated` notifications posted this frame (one
exactly on each gate-state transition). -/
noncomputable def hdOnFrame (sr : ℕ) (st : HalfDuplexState) (nSamples : ℕ)
    (near far : ℕ → ℝ) : HalfDuplexState × List ℝ × List Bool :=
  let farEndLevel' := hdEnvelope sr st nSamples far
  let threshold : ℝ := (10 : ℝ) ^ (st.config.thresholdDb / 20)
  let shouldGate : Bool := decide (threshold < farEndLevel')
  let msgs := if shouldGate ≠ st.gated then [shouldGate] else []
  if shouldGate = true then
    ({ st with farEndLevel := farEndLevel', gated := shouldGate,
               gatedFrames := st.gatedFrames + 1 },
     List.replicate nSamples 0, msgs)
  else
    ({ st with farEndLevel := farEndLevel', gated := shouldGate },
     (List.range nSamples).map near, msgs)

/-- C9: in `HalfDuplexStrategy.onFrame`, when the smoothed far-end envelope
exceeds the linear threshold `10^(thresholdDb/20)` the gate is closed and
every output sample of that frame is `0`; otherwise every output sample equals
the corresponding near-end sample unchanged. -/
theorem halfDuplex_gate (sr : ℕ) (st : HalfDuplexState) (nSamples : ℕ)
    (near far : ℕ → ℝ) :
    (hdOnFrame sr st nSamples near far).2.1
      = if (10 : ℝ) ^ (st.config.thresholdDb / 20) < hdEnvelope sr st nSamples far
        then List.replicate nSamples 0
        else (List.range nSamples).map near := by
  by_cases h : (10 : ℝ) ^ (st.config.thresholdDb / 20) < hdEnvelope sr st nSamples far <;>
    simp [hdOnFrame, h]

/-! ## XCorrHelper (`class XCorrHelper`, source lines 56-272)

The cross-correlation delay estimator.  Buffers hold audio samples, so the
embedding is over `ℝ` (the NCC and the energy gate take square roots).
JavaScript circular index `(writePos - 1 - i + bufferSize) % bufferSize` is
rendered `(writePos + bufferSize - 1 - i) % bufferSize`; inside every loop the
JS intermediate value is nonnegative (indices `i` stay below `bufferSize`), so
the two agree. -/

/-- `_dbToLin` (source lines 1-3). -/
noncomputable def dbToLin (db : ℝ) : ℝ := (10 : ℝ) ^ (db / 20)

/-- `Math.floor(sampleRate * ms / 1000)` for the ms-to-samples conversions of
lines 93-94/116/126 (clamped at 0 for nonsensical negative ms). -/
def msToSamples (sr : ℕ) (ms : ℚ) : ℕ := (⌊(sr : ℚ) * ms / 1000⌋).toNat

structure XCorrConfig where
  minDelayMs : ℚ
  updateIntervalFrames : ℕ
  echoTimeWindowSizeMs : ℚ
  stepSize : ℕ            -- coarse search stride, in samples
  txThresholdDb : ℝ
  rxThresholdDb : ℝ
  smoothingAlpha : ℝ
  nxcThreshold : ℝ
  xcorrWindowSize : ℕ
  echoAttenuation : ℝ

/-- Default config of `XCorrHelper.getDefaultCfg` (source lines 57-70). -/
noncomputable def xcorrDefaultCfg : XCorrConfig :=
  { minDelayMs := 80, updateIntervalFrames := 1000, echoTimeWindowSizeMs := 500,
    stepSize := 48, txThresholdDb := -40, rxThresholdDb := -24,
    smoothingAlpha := 1/2, nxcThreshold := 55/100, xcorrWindowSize := 1024,
    echoAttenuation := 3/10 }

structure XCorrState where
  echoTimeWindowSizeMs : ℚ
  updateIntervalFrames : ℕ
  minDelayMs : ℚ
  stepSize : ℕ
  txThresholdLin : ℝ
  rxThresholdLin : ℝ
  smoothingAlpha : ℝ
  nxcThreshold : ℝ
  xcorrWindowSize : ℕ
  bufferSize : ℕ          -- derived: msToSamples echoTimeWindowSizeMs
  minDelay : ℕ            -- derived: msToSamples minDelayMs
  delayUpdateCountRejectedNoTx : ℕ
  delayUpdateCountRejectedNoRx : ℕ
  delayUpdateCountRejectedPoorXCorr : ℕ
  delayUpdateCount : ℕ
  lastXCorrScore : Option ℝ   -- `none` models the JS `-Infinity`
  nearEndBuffer : ℕ → ℝ
  farEndBuffer : ℕ → ℝ
  writePos : ℕ
  delay : ℕ
  frameCounter : ℕ
  foundXC : Bool

/-- The `XCorrHelper` constructor (source lines 72-110).  The required-key
validation of lines 73-80 is subsumed by the total `XCorrConfig` record type:
a config value always carries every required key. -/
noncomputable def xcorrInit (sr : ℕ) (cfg : XCorrConfig) : XCorrState :=
  { echoTimeWindowSizeMs := cfg.echoTimeWindowSizeMs,
    updateIntervalFrames := cfg.updateIntervalFrames,
    minDelayMs := cfg.minDelayMs,
    stepSize := cfg.stepSize,
    txThresholdLin := dbToLin cfg.txThresholdDb,
    rxThresholdLin := dbToLin cfg.rxThresholdDb,
    smoothingAlpha := cfg.smoothingAlpha,
    nxcThreshold := cfg.nxcThreshold,
    xcorrWindowSize := cfg.xcorrWindowSize,
    bufferSize := msToSamples sr cfg.echoTimeWindowSizeMs,
    minDelay := msToSamples sr cfg.minDelayMs,
    delayUpdateCountRejectedNoTx := 0, delayUpdateCountRejectedNoRx := 0,
    delayUpdateCountRejectedPoorXCorr := 0, delayUpdateCount := 0,
    lastXCorrScore := some 0,
    nearEndBuffer := fun _ => 0, farEndBuffer := fun _ => 0,
    writePos := 0, delay := msToSamples sr cfg.minDelayMs,
    frameCounter := 0, foundXC := false }

/-- `numSamples` of `_computeNCC` (line 196): `min(windowSize, bufferSize -
delay)`; `ℕ` truncation at 0 matches the JS loop running zero iterations. -/
def nccNumSamples (bufferSize delay windowSize : ℕ) : ℕ :=
  min windowSize (bufferSize - delay)

/-- Near-end read index of `_computeNCC` (line 198). -/
def nccNearIdx (bufferSize writePos i : ℕ) : ℕ :=
  (writePos + bufferSize - 1 - i) % bufferSize

/-- Far-end read index of `_computeNCC` (line 199). -/
def nccFarIdx (bufferSize writePos delay i : ℕ) : ℕ :=
  (writePos + bufferSize - 1 - i - delay) % bufferSize

/-- The `corr` accumulator of `_computeNCC` (lines 195-202). -/
noncomputable def nccCorr (st : XCorrState) (delay windowSize : ℕ) : ℝ :=
  ∑ i ∈ Finset.range (nccNumSamples st.bufferSize delay windowSize),
    st.nearEndBuffer (nccNearIdx st.bufferSize st.writePos i)
      * st.farEndBuffer (nccFarIdx st.bufferSize st.writePos delay i)

/-- The near-end window energy `nearE` of `_computeNCC` (line 203). -/
noncomputable def nccNearE (st : XCorrState) (delay windowSize : ℕ) : ℝ :=
  ∑ i ∈ Finset.range (nccNumSamples st.bufferSize delay windowSize),
    st.nearEndBuffer (nccNearIdx st.bufferSize st.writePos i)
      * st.nearEndBuffer (nccNearIdx st.bufferSize st.writePos i)

/-- The far-end window energy `farE` of `_computeNCC` (line 204). -/
noncomputable def nccFarE (st : XCorrState) (delay windowSize : ℕ) : ℝ :=
  ∑ i ∈ Finset.range (nccNumSamples st.bufferSize delay windowSize),
    st.farEndBuffer (nccFarIdx st.bufferSize st.writePos delay i)
      * st.farEndBuffer (nccFarIdx st.bufferSize st.writePos delay i)

/-- `XCorrHelper._computeNCC` (source lines 194-208):
`denom = sqrt(nearE * farE); return denom > 0 ? corr / denom : 0`. -/
noncomputable def computeNCC (st : XCorrState) (delay windowSize : ℕ) : ℝ :=
  if 0 < Real.sqrt (nccNearE st delay windowSize * nccFarE st delay windowSize)
  then nccCorr st delay windowSize
    / Real.sqrt (nccNearE st delay windowSize * nccFarE st delay windowSize)
  else 0

open Classical in
/-- `XCorrHelper.haveEnoughSignalForXCorr` (source lines 163-192): RMS energy
gate over the most recent `min(xcorrWindowSize, bufferSize)` samples; returns
the verdict together with the state (a rejection bumps its counter). -/
noncomputable def haveEnoughSignalForXCorr (st : XCorrState) : Bool × XCorrState :=
  let numSamples := min st.xcorrWindowSize st.bufferSize
  let txE := Real.sqrt ((∑ i ∈ Finset.range numSamples,
      st.nearEndBuffer (nccNearIdx st.bufferSize st.writePos i)
        * st.nearEndBuffer (nccNearIdx st.bufferSize st.writePos i)) / (numSamples : ℝ))
  let rxE := Real.sqrt ((∑ i ∈ Finset.range numSamples,
      st.farEndBuffer (nccNearIdx st.bufferSize st.writePos i)
        * st.farEndBuffer (nccNearIdx st.bufferSize st.writePos i)) / (numSamples : ℝ))
  if txE < st.txThresholdLin then
    (false, { st with delayUpdateCountRejectedNoTx := st.delayUpdateCountRejectedNoTx + 1 })
  else if rxE < st.rxThresholdLin then
    (false, { st with delayUpdateCountRejectedNoRx := st.delayUpdateCountRejectedNoRx + 1 })
  else (true, st)

/-- Candidates of a JS loop `for (let d = start; d < stop; d += step)` with
positive integer stride.  A zero step would make the JS loop diverge; the
model yields no candidates (the delay then stays put, see `updateDelay`). -/
def stridedCandidates (start stop step : ℕ) : List ℕ :=
  if step = 0 then []
  else (List.range ((stop - start + step - 1) / step)).map (fun k => start + k * step)

open Classical in
/-- One comparison step of the search loops (lines 223-227 and 236-240):
`if (ncc > bestNXC) { bestNXC = ncc; bestDelay = d; }` with `none` standing
for the `-Infinity` initialization of `bestNXC` (every finite score beats it). -/
noncomputable def nccSearchStep (st : XCorrState) (windowSize : ℕ)
    (acc : Option ℝ × ℕ) (d : ℕ) : Option ℝ × ℕ :=
  match acc.1 with
  | none => (some (computeNCC st d windowSize), d)
  | some b => if b < computeNCC st d windowSize
      then (some (computeNCC st d windowSize), d) else acc

noncomputable def nccSearchFold (st : XCorrState) (windowSize : ℕ)
    (init : Option ℝ × ℕ) (ds : List ℕ) : Option ℝ × ℕ :=
  ds.foldl (nccSearchStep st windowSize) init

/-- The coarse candidate list of `updateDelay` (source line 222):
`for (let d = this.minDelay; d < maxDelay; d += this.stepSize)`. -/
def coarseCandidates (st1 : XCorrState) : List ℕ :=
  stridedCandidates st1.minDelay (st1.bufferSize - st1.minDelay) st1.stepSize

/-- The fine candidate list of `updateDelay` (source lines 231-235): stride 12
from `max(minDelay, coarseDelay - stepSize)` to `min(maxDelay, coarseDelay +
stepSize)`. -/
def fineCandidates (st1 : XCorrState) (coarseDelay : ℕ) : List ℕ :=
  stridedCandidates (max st1.minDelay (coarseDelay - st1.stepSize))
    (min (st1.bufferSize - st1.minDelay) (coarseDelay + st1.stepSize)) 12

open Classical in
/-- The post-gate part of `XCorrHelper.updateDelay` (source lines 215-255):
coarse search (tracking `coarseDelay`, initialized 0), fine search, then
accept/reject against `nxcThreshold`.  The accepted branch mirrors the dead
exponential smoothing of lines 251-252, which line 253 immediately overwrites
with the raw best delay. -/
noncomputable def updateDelaySearch (st1 : XCorrState) : XCorrState :=
  let windowSize := min st1.xcorrWindowSize st1.bufferSize
  let coarse := nccSearchFold st1 windowSize (none, 0) (coarseCandidates st1)
  let fine := nccSearchFold st1 windowSize coarse (fineCandidates st1 coarse.2)
  match fine.1 with
  | none =>
      -- bestNXC is still -Infinity and `-Infinity < nxcThreshold` rejects
      { st1 with lastXCorrScore := none,
                 delayUpdateCountRejectedPoorXCorr :=
                   st1.delayUpdateCountRejectedPoorXCorr + 1 }
  | some best =>
      if best < st1.nxcThreshold then
        { st1 with lastXCorrScore := some best,
                   delayUpdateCountRejectedPoorXCorr :=
                     st1.delayUpdateCountRejectedPoorXCorr + 1 }
      else
        -- lines 251-252 compute a smoothed, clamped delay that line 253
        -- discards in favour of the raw best-scoring delay
        let _smoothedDead := max (st1.smoothingAlpha * (fine.2 : ℝ)
            + (1 - st1.smoothingAlpha) * (st1.delay : ℝ)) ((st1.minDelay : ℝ))
        { st1 with lastXCorrScore := some best,
                   delayUpdateCount := st1.delayUpdateCount + 1,
                   delay := fine.2, foundXC := true }

/-- `XCorrHelper.updateDelay` (source lines 210-255): energy gate, then the
two-phase search. -/
noncomputable def updateDelay (st : XCorrState) : XCorrState :=
  let gate := haveEnoughSignalForXCorr st
  if gate.1 = false then gate.2
  else updateDelaySearch gate.2

/-- The per-sample circular writes of `XCorrHelper.addFrame` (lines 151-155). -/
noncomputable def xcorrWriteLoop (st : XCorrState) (n : ℕ) (near far : ℕ → ℝ) :
    XCorrState :=
  let res := (List.range n).foldl
    (fun (a : (ℕ → ℝ) × (ℕ → ℝ) × ℕ) i =>
      (Function.update a.1 a.2.2 (near i), Function.update a.2.1 a.2.2 (far i),
       (a.2.2 + 1) % st.bufferSize))
    (st.nearEndBuffer, st.farEndBuffer, st.writePos)
  { st with nearEndBuffer := res.1, farEndBuffer := res.2.1, writePos := res.2.2 }

/-- `XCorrHelper.addFrame` (source lines 149-161); the frame length is passed
explicitly (the source reads `nearEndFrame.length`). -/
noncomputable def addFrame (st : XCorrState) (n : ℕ) (near far : ℕ → ℝ) : XCorrState :=
  let st1 := xcorrWriteLoop st n near far
  let st2 := { st1 with frameCounter := st1.frameCounter + 1 }
  if st2.updateIntervalFrames ≤ st2.frameCounter then
    updateDelay { st2 with frameCounter := 0 }
  else st2

/-- A partial config for `XCorrHelper.updateConfig`: `none` models an absent
(`undefined`) key. -/
structure XCorrConfigPatch where
  echoTimeWindowSizeMs : Option ℚ := none
  updateIntervalFrames : Option ℕ := none
  minDelayMs : Option ℚ := none
  stepSize : Option ℕ := none
  txThresholdDb : Option ℝ := none
  rxThresholdDb : Option ℝ := none
  smoothingAlpha : Option ℝ := none
  nxcThreshold : Option ℝ := none
  xcorrWindowSize : Option ℕ := none

/-- Lines 114-120 of `updateConfig`: a present and *changed* echo window
resizes and clears the buffers. -/
def patchEchoWindow (sr : ℕ) (st : XCorrState) : Option ℚ → XCorrState
  | some v =>
      if v ≠ st.echoTimeWindowSizeMs then
        { st with echoTimeWindowSizeMs := v,
                  bufferSize := msToSamples sr v,
                  nearEndBuffer := fun _ => 0, farEndBuffer := fun _ => 0,
                  writePos := 0 }
      else st
  | none => st

/-- Lines 121-123 of `updateConfig`. -/
def patchUpdateInterval (st : XCorrState) : Option ℕ → XCorrState
  | some v => { st with updateIntervalFrames := v }
  | none => st

/-- Lines 124-128 of `updateConfig`: a present `minDelayMs` recomputes
`minDelay` and re-clamps the stored delay
(`this.delay = Math.max(this.delay, this.minDelay)`, line 127). -/
def patchMinDelay (sr : ℕ) (st : XCorrState) : Option ℚ → XCorrState
  | some v => { st with minDelayMs := v, minDelay := msToSamples sr v,
                        delay := max st.delay (msToSamples sr v) }
  | none => st

/-- Lines 129-131 of `updateConfig`. -/
def patchStepSize (st : XCorrState) : Option ℕ → XCorrState
  | some v => { st with stepSize := v }
  | none => st

/-- Lines 132-134 of `updateConfig`. -/
noncomputable def patchTxThreshold (st : XCorrState) : Option ℝ → XCorrState
  | some v => { st with txThresholdLin := dbToLin v }
  | none => st

/-- Lines 135-137 of `updateConfig`. -/
noncomputable def patchRxThreshold (st : XCorrState) : Option ℝ → XCorrState
  | some v => { st with rxThresholdLin := dbToLin v }
  | none => st

/-- Lines 138-140 of `updateConfig`. -/
def patchSmoothingAlpha (st : XCorrState) : Option ℝ → XCorrState
  | some v => { st with smoothingAlpha := v }
  | none => st

/-- Lines 141-143 of `updateConfig`. -/
def patchNxcThreshold (st : XCorrState) : Option ℝ → XCorrState
  | some v => { st with nxcThreshold := v }
  | none => st

/-- Lines 144-146 of `updateConfig`. -/
def patchXcorrWindow (st : XCorrState) : Option ℕ → XCorrState
  | some v => { st with xcorrWindowSize := v }
  | none => st

/-- `XCorrHelper.updateConfig` (source lines 112-147): every present key
applied in source order. -/
noncomputable def updateConfig (sr : ℕ) (st : XCorrState) (p : XCorrConfigPatch) :
    XCorrState :=
  patchXcorrWindow
    (patchNxcThreshold
      (patchSmoothingAlpha
        (patchRxThreshold
          (patchTxThreshold
            (patchStepSize
              (patchMinDelay sr
                (patchUpdateInterval
                  (patchEchoWindow sr st p.echoTimeWindowSizeMs)
                  p.updateIntervalFrames)
                p.minDelayMs)
              p.stepSize)
            p.txThresholdDb)
          p.rxThresholdDb)
        p.smoothingAlpha)
      p.nxcThreshold)
    p.xcorrWindowSize

/-- The operations a client can run on an `XCorrHelper` after construction. -/
inductive XCorrOp where
  | addFrameOp (n : ℕ) (near far : ℕ → ℝ)
  | updateDelayOp
  | updateConfigOp (p : XCorrConfigPatch)

noncomputable def applyXCorrOp (sr : ℕ) (st : XCorrState) : XCorrOp → XCorrState
  | .addFrameOp n near far => addFrame st n near far
  | .updateDelayOp => updateDelay st
  | .updateConfigOp p => updateConfig sr st p

noncomputable def runXCorrOps (sr : ℕ) (cfg : XCorrConfig) (ops : List XCorrOp) :
    XCorrState :=
  ops.foldl (applyXCorrOp sr) (xcorrInit sr cfg)

/-! Helper lemmas for the minimum-delay invariant (claim C2). -/

theorem gate_preserves (st : XCorrState) :
    (haveEnoughSignalForXCorr st).2.minDelay = st.minDelay ∧
    (haveEnoughSignalForXCorr st).2.minDelayMs = st.minDelayMs ∧
    (haveEnoughSignalForXCorr st).2.delay = st.delay := by
  simp only [haveEnoughSignalForXCorr]
  split
  · exact ⟨rfl, rfl, rfl⟩
  · split
    · exact ⟨rfl, rfl, rfl⟩
    · exact ⟨rfl, rfl, rfl⟩

theorem stridedCandidates_ge (start stop step d : ℕ)
    (hd : d ∈ stridedCandidates start stop step) : start ≤ d := by
  rw [stridedCandidates] at hd
  split at hd
  · simp at hd
  · obtain ⟨k, _, rfl⟩ := List.mem_map.mp hd
    exact Nat.le_add_right _ _

theorem nccSearchFold_ge (st : XCorrState) (ws m : ℕ) (ds : List ℕ) :
    ∀ (init : Option ℝ × ℕ),
      (∀ d ∈ ds, m ≤ d) → ((init.1).isSome = true → m ≤ init.2) →
      (((nccSearchFold st ws init ds).1).isSome = true →
        m ≤ (nccSearchFold st ws init ds).2) := by
  induction ds with
  | nil =>
      intro init _ hinit hs
      exact hinit hs
  | cons d rest ih =>
      intro init hds hinit
      have hfold : nccSearchFold st ws init (d :: rest)
          = nccSearchFold st ws (nccSearchStep st ws init d) rest := rfl
      rw [hfold]
      refine ih (nccSearchStep st ws init d)
        (fun x hx => hds x (List.mem_cons_of_mem d hx)) ?_
      rcases hacc : init.1 with _ | b
      · simp only [nccSearchStep, hacc]
        intro _
        exact hds d (List.mem_cons_self d rest)
      · simp only [nccSearchStep, hacc]
        split
        · intro _
          exact hds d (List.mem_cons_self d rest)
        · intro _
          exact hinit (by rw [hacc]; rfl)

theorem updateDelaySearch_preserves (s : XCorrState) (h : s.minDelay ≤ s.delay) :
    (updateDelaySearch s).minDelay = s.minDelay ∧
    (updateDelaySearch s).minDelayMs = s.minDelayMs ∧
    s.minDelay ≤ (updateDelaySearch s).delay := by
  have hcoarse : ((nccSearchFold s (min s.xcorrWindowSize s.bufferSize) (none, 0)
        (coarseCandidates s)).1).isSome = true →
      s.minDelay ≤ (nccSearchFold s (min s.xcorrWindowSize s.bufferSize) (none, 0)
        (coarseCandidates s)).2 :=
    nccSearchFold_ge s _ s.minDelay _ (none, 0)
      (fun d hd => stridedCandidates_ge _ _ _ _ hd)
      (fun hs => by simp at hs)
  have hfine : ∀ c : Option ℝ × ℕ,
      ((c.1).isSome = true → s.minDelay ≤ c.2) →
      (((nccSearchFold s (min s.xcorrWindowSize s.bufferSize) c
          (fineCandidates s c.2)).1).isSome = true →
        s.minDelay ≤ (nccSearchFold s (min s.xcorrWindowSize s.bufferSize) c
          (fineCandidates s c.2)).2) :=
    fun c hc => nccSearchFold_ge s _ s.minDelay _ c
      (fun d hd => le_trans (le_max_left _ _) (stridedCandidates_ge _ _ _ _ hd)) hc
  rw [updateDelaySearch]
  split
  · exact ⟨rfl, rfl, h⟩
  · rename_i best heq
    split
    · exact ⟨rfl, rfl, h⟩
    · refine ⟨rfl, rfl, ?_⟩
      exact hfine _ hcoarse (by rw [heq]; rfl)

theorem updateDelay_preserves (st : XCorrState) (h : st.minDelay ≤ st.delay) :
    (updateDelay st).minDelay = st.minDelay ∧
    (updateDelay st).minDelayMs = st.minDelayMs ∧
    st.minDelay ≤ (updateDelay st).delay := by
  obtain ⟨g1, g2, g3⟩ := gate_preserves st
  rw [updateDelay]
  split
  · exact ⟨g1, g2, g3 ▸ h⟩
  · obtain ⟨u1, u2, u3⟩ :=
      updateDelaySearch_preserves (haveEnoughSignalForXCorr st).2
        (by rw [g1, g3]; exact h)
    exact ⟨by rw [u1, g1], by rw [u2, g2], by rw [← g1]; exact u3⟩

theorem xcorrWriteLoop_fields (st : XCorrState) (n : ℕ) (near far : ℕ → ℝ) :
    (xcorrWriteLoop st n near far).minDelay = st.minDelay ∧
    (xcorrWriteLoop st n near far).minDelayMs = st.minDelayMs ∧
    (xcorrWriteLoop st n near far).delay = st.delay :=
  ⟨rfl, rfl, rfl⟩

theorem addFrame_preserves (st : XCorrState) (n : ℕ) (near far : ℕ → ℝ)
    (h : st.minDelay ≤ st.delay) :
    (addFrame st n near far).minDelay = st.minDelay ∧
    (addFrame st n near far).minDelayMs = st.minDelayMs ∧
    st.minDelay ≤ (addFrame st n near far).delay := by
  rw [addFrame]
  split
  · obtain ⟨u1, u2, u3⟩ := updateDelay_preserves
      { xcorrWriteLoop st n near far with frameCounter := 0 } h
    exact ⟨u1, u2, u3⟩
  · exact ⟨rfl, rfl, h⟩

theorem updateConfig_preserves (sr : ℕ) (st : XCorrState) (p : XCorrConfigPatch)
    (h1 : st.minDelay = msToSamples sr st.minDelayMs) (h2 : st.minDelay ≤ st.delay) :
    (updateConfig sr st p).minDelay
        = msToSamples sr (updateConfig sr st p).minDelayMs ∧
    (updateConfig sr st p).minDelay ≤ (updateConfig sr st p).delay := by
  have hEcho : ∀ (s : XCorrState) (v : Option ℚ),
      s.minDelay = msToSamples sr s.minDelayMs → s.minDelay ≤ s.delay →
      ((patchEchoWindow sr s v).minDelay
          = msToSamples sr (patchEchoWindow sr s v).minDelayMs ∧
        (patchEchoWindow sr s v).minDelay ≤ (patchEchoWindow sr s v).delay) := by
    intro s v hs1 hs2
    cases v with
    | none => exact ⟨hs1, hs2⟩
    | some w =>
        rw [patchEchoWindow]
        split
        · exact ⟨hs1, hs2⟩
        · exact ⟨hs1, hs2⟩
  have hMin : ∀ (s : XCorrState) (v : Option ℚ),
      s.minDelay = msToSamples sr s.minDelayMs → s.minDelay ≤ s.delay →
      ((patchMinDelay sr s v).minDelay
          = msToSamples sr (patchMinDelay sr s v).minDelayMs ∧
        (patchMinDelay sr s v).minDelay ≤ (patchMinDelay sr s v).delay) := by
    intro s v hs1 hs2
    cases v with
    | none => exact ⟨hs1, hs2⟩
    | some w => exact ⟨rfl, le_max_right _ _⟩
  rw [updateConfig]
  obtain ⟨e1, e2⟩ := hEcho st p.echoTimeWindowSizeMs h1 h2
  have hInt : ∀ (s : XCorrState) (v : Option ℕ),
      (patchUpdateInterval s v).minDelay = s.minDelay ∧
      (patchUpdateInterval s v).minDelayMs = s.minDelayMs ∧
      (patchUpdateInterval s v).delay = s.delay := by
    intro s v; cases v <;> exact ⟨rfl, rfl, rfl⟩
  obtain ⟨i1, i2, i3⟩ := hInt (patchEchoWindow sr st p.echoTimeWindowSizeMs)
    p.updateIntervalFrames
  obtain ⟨m1, m2⟩ := hMin
    (patchUpdateInterval (patchEchoWindow sr st p.echoTimeWindowSizeMs)
      p.updateIntervalFrames) p.minDelayMs
    (by rw [i1, i2]; exact e1) (by rw [i1, i3]; exact e2)
  have hStep : ∀ (s : XCorrState) (v : Option ℕ),
      (patchStepSize s v).minDelay = s.minDelay ∧
      (patchStepSize s v).minDelayMs = s.minDelayMs ∧
      (patchStepSize s v).delay = s.delay := by
    intro s v; cases v <;> exact ⟨rfl, rfl, rfl⟩
  have hTx : ∀ (s : XCorrState) (v : Option ℝ),
      (patchTxThreshold s v).minDelay = s.minDelay ∧
      (patchTxThreshold s v).minDelayMs = s.minDelayMs ∧
      (patchTxThreshold s v).delay = s.delay := by
    intro s v; cases v <;> exact ⟨rfl, rfl, rfl⟩
  have hRx : ∀ (s : XCorrState) (v : Option ℝ),
      (patchRxThreshold s v).minDelay = s.minDelay ∧
      (patchRxThreshold s v).minDelayMs = s.minDelayMs ∧
      (patchRxThreshold s v).delay = s.delay := by
    intro s v; cases v <;> exact ⟨rfl, rfl, rfl⟩
  have hAl : ∀ (s : XCorrState) (v : Option ℝ),
      (patchSmoothingAlpha s v).minDelay = s.minDelay ∧
      (patchSmoothingAlpha s v).minDelayMs = s.minDelayMs ∧
      (patchSmoothingAlpha s v).delay = s.delay := by
    intro s v; cases v <;> exact ⟨rfl, rfl, rfl⟩
  have hNx : ∀ (s : XCorrState) (v : Option ℝ),
      (patchNxcThreshold s v).minDelay = s.minDelay ∧
      (patchNxcThreshold s v).minDelayMs = s.minDelayMs ∧
      (patchNxcThreshold s v).delay = s.delay := by
    intro s v; cases v <;> exact ⟨rfl, rfl, rfl⟩
  have hXw : ∀ (s : XCorrState) (v : Option ℕ),
      (patchXcorrWindow s v).minDelay = s.minDelay ∧
      (patchXcorrWindow s v).minDelayMs = s.minDelayMs ∧
      (patchXcorrWindow s v).delay = s.delay := by
    intro s v; cases v <;> exact ⟨rfl, rfl, rfl⟩
  obtain ⟨s1, s2, s3⟩ := hStep _ p.stepSize
  obtain ⟨t1, t2, t3⟩ := hTx _ p.txThresholdDb
  obtain ⟨r1, r2, r3⟩ := hRx _ p.rxThresholdDb
  obtain ⟨a1, a2, a3⟩ := hAl _ p.smoothingAlpha
  obtain ⟨n1, n2, n3⟩ := hNx _ p.nxcThreshold
  obtain ⟨x1, x2, x3⟩ := hXw _ p.xcorrWindowSize
  constructor
  · rw [x1, n1, a1, r1, t1, s1, x2, n2, a2, r2, t2, s2]
    exact m1
  · rw [x1, n1, a1, r1, t1, s1, x3, n3, a3, r3, t3, s3]
    exact m2

theorem applyXCorrOp_preserves (sr : ℕ) (st : XCorrState) (op : XCorrOp)
    (h1 : st.minDelay = msToSamples sr st.minDelayMs) (h2 : st.minDelay ≤ st.delay) :
    (applyXCorrOp sr st op).minDelay
        = msToSamples sr (applyXCorrOp sr st op).minDelayMs ∧
    (applyXCorrOp sr st op).minDelay ≤ (applyXCorrOp sr st op).delay := by
  cases op with
  | addFrameOp n near far =>
      obtain ⟨u1, u2, u3⟩ := addFrame_preserves st n near far h2
      simp only [applyXCorrOp]
      exact ⟨by rw [u1, u2]; exact h1, by rw [u1]; exact u3⟩
  | updateDelayOp =>
      obtain ⟨u1, u2, u3⟩ := updateDelay_preserves st h2
      simp only [applyXCorrOp]
      exact ⟨by rw [u1, u2]; exact h1, by rw [u1]; exact u3⟩
  | updateConfigOp p =>
      simp only [applyXCorrOp]
      exact updateConfig_preserves sr st p h1 h2

/-- C2: in every state reachable from the `XCorrHelper` constructor by any
sequence of `addFrame`, `updateDelay` and `updateConfig` operations, the
derived minimum delay equals `floor(sampleRate * minDelayMs / 1000)` and the
stored delay never falls below it: an accepted delay update records a searched
candidate (all of which are at least `minDelay`), and raising `minDelayMs` via
`updateConfig` re-clamps the stored delay through `Math.max`. -/
theorem xcorr_delay_ge_minDelay (sr : ℕ) (cfg : XCorrConfig) (ops : List XCorrOp) :
    (runXCorrOps sr cfg ops).minDelay
        = msToSamples sr (runXCorrOps sr cfg ops).minDelayMs ∧
    (runXCorrOps sr cfg ops).minDelay ≤ (runXCorrOps sr cfg ops).delay := by
  suffices h : ∀ (l : List XCorrOp) (s : XCorrState),
      s.minDelay = msToSamples sr s.minDelayMs → s.minDelay ≤ s.delay →
      ((l.foldl (applyXCorrOp sr) s).minDelay
          = msToSamples sr (l.foldl (applyXCorrOp sr) s).minDelayMs ∧
        (l.foldl (applyXCorrOp sr) s).minDelay ≤ (l.foldl (applyXCorrOp sr) s).delay) by
    exact h ops (xcorrInit sr cfg) rfl (le_refl _)
  intro l
  induction l with
  | nil => intro s hs1 hs2; exact ⟨hs1, hs2⟩
  | cons op rest ih =>
      intro s hs1 hs2
      obtain ⟨k1, k2⟩ := applyXCorrOp_preserves sr s op hs1 hs2
      exact ih (applyXCorrOp sr s op) k1 k2

/-! Claim C4: range and alignment properties of `_computeNCC`. -/

/-- C4: in exact arithmetic, `_computeNCC` always returns a value in
`[-1, 1]`; it returns `0` whenever either window's energy is `0`; and it
returns `1` for two identical, correctly aligned windows (near-end window
equal to the delayed far-end window) of positive energy. -/
theorem computeNCC_props (st : XCorrState) (delay windowSize : ℕ) :
    (-1 ≤ computeNCC st delay windowSize ∧ computeNCC st delay windowSize ≤ 1) ∧
    ((nccNearE st delay windowSize = 0 ∨ nccFarE st delay windowSize = 0) →
      computeNCC st delay windowSize = 0) ∧
    ((∀ i < nccNumSamples st.bufferSize delay windowSize,
        st.nearEndBuffer (nccNearIdx st.bufferSize st.writePos i)
          = st.farEndBuffer (nccFarIdx st.bufferSize st.writePos delay i)) →
      0 < nccNearE st delay windowSize →
      computeNCC st delay windowSize = 1) := by
  have hNE : 0 ≤ nccNearE st delay windowSize :=
    Finset.sum_nonneg (fun i _ => mul_self_nonneg _)
  have hCS : nccCorr st delay windowSize * nccCorr st delay windowSize
      ≤ nccNearE st delay windowSize * nccFarE st delay windowSize := by
    have hcs := Finset.sum_mul_sq_le_sq_mul_sq
      (Finset.range (nccNumSamples st.bufferSize delay windowSize))
      (fun i => st.nearEndBuffer (nccNearIdx st.bufferSize st.writePos i))
      (fun i => st.farEndBuffer (nccFarIdx st.bufferSize st.writePos delay i))
    simpa [nccCorr, nccNearE, nccFarE, pow_two] using hcs
  have habs : |nccCorr st delay windowSize|
      ≤ Real.sqrt (nccNearE st delay windowSize * nccFarE st delay windowSize) := by
    rw [← Real.sqrt_mul_self (abs_nonneg (nccCorr st delay windowSize)),
      abs_mul_abs_self]
    exact Real.sqrt_le_sqrt hCS
  refine ⟨?_, ?_, ?_⟩
  · rw [computeNCC]
    split
    · rename_i hd
      obtain ⟨hlo, hhi⟩ := abs_le.mp habs
      constructor
      · rw [le_div_iff₀ hd]
        linarith
      · rw [div_le_one hd]
        exact hhi
    · norm_num
  · intro h0
    have hprod : nccNearE st delay windowSize * nccFarE st delay windowSize = 0 := by
      rcases h0 with h | h
      · rw [h, zero_mul]
      · rw [h, mul_zero]
    rw [computeNCC, hprod, Real.sqrt_zero]
    simp
  · intro hid hpos
    have hc : nccCorr st delay windowSize = nccNearE st delay windowSize := by
      rw [nccCorr, nccNearE]
      refine Finset.sum_congr rfl (fun i hi => ?_)
      rw [hid i (Finset.mem_range.mp hi)]
    have hf : nccFarE st delay windowSize = nccNearE st delay windowSize := by
      rw [nccFarE, nccNearE]
      refine Finset.sum_congr rfl (fun i hi => ?_)
      rw [hid i (Finset.mem_range.mp hi)]
    rw [computeNCC, hc, hf, Real.sqrt_mul_self hNE, if_pos hpos]
    exact div_self (ne_of_gt hpos)

/-- All-ones single-sample buffers: concrete input for the C4 witness. -/
noncomputable def xcorrWitOnes : XCorrState :=
  { echoTimeWindowSizeMs := 0, updateIntervalFrames := 1000, minDelayMs := 0,
    stepSize := 48, txThresholdLin := 0, rxThresholdLin := 0, smoothingAlpha := 0,
    nxcThreshold := 0, xcorrWindowSize := 1, bufferSize := 1, minDelay := 0,
    delayUpdateCountRejectedNoTx := 0, delayUpdateCountRejectedNoRx := 0,
    delayUpdateCountRejectedPoorXCorr := 0, delayUpdateCount := 0,
    lastXCorrScore := some 0,
    nearEndBuffer := fun _ => 1, farEndBuffer := fun _ => 1,
    writePos := 0, delay := 0, frameCounter := 0, foundXC := false }

/-- All-zero buffers: concrete zero-energy input for the C4 witness. -/
noncomputable def xcorrWitZeros : XCorrState :=
  { xcorrWitOnes with nearEndBuffer := fun _ => 0, farEndBuffer := fun _ => 0 }

theorem computeNCC_props_witness :
    ((∀ i < nccNumSamples xcorrWitOnes.bufferSize 0 1,
        xcorrWitOnes.nearEndBuffer (nccNearIdx xcorrWitOnes.bufferSize xcorrWitOnes.writePos i)
          = xcorrWitOnes.farEndBuffer
              (nccFarIdx xcorrWitOnes.bufferSize xcorrWitOnes.writePos 0 i)) ∧
      0 < nccNearE xcorrWitOnes 0 1) ∧
    computeNCC xcorrWitOnes 0 1 = 1 ∧
    nccNearE xcorrWitZeros 0 1 = 0 ∧
    computeNCC xcorrWitZeros 0 1 = 0 :=
  ⟨⟨fun _ _ => rfl,
    by norm_num [nccNearE, nccNumSamples, nccNearIdx, xcorrWitOnes, Finset.sum_range_succ]⟩,
   (computeNCC_props xcorrWitOnes 0 1).2.2 (fun _ _ => rfl)
     (by norm_num [nccNearE, nccNumSamples, nccNearIdx, xcorrWitOnes, Finset.sum_range_succ]),
   by norm_num [nccNearE, nccNumSamples, nccNearIdx, xcorrWitZeros, xcorrWitOnes,
     Finset.sum_range_succ],
   (computeNCC_props xcorrWitZeros 0 1).2.1
     (Or.inl (by norm_num [nccNearE, nccNumSamples, nccNearIdx, xcorrWitZeros, xcorrWitOnes,
       Finset.sum_range_succ]))⟩

/-! ## TimeAlignedSubtractStrategy (`class TimeAlignedSubtractStrategy`,
source lines 339-435)

The strategy owns an `XCorrHelper`, its own far-end history ring buffer, and
`lastDelay`, the *latched* read offset.  Debug recording (lines 355-371 and
421/429-432) writes only to the debug track and reads no state the output
depends on; it is omitted from the model. -/

structure TASState where
  config : XCorrConfig     -- `this.config` (starts as `XCorrHelper.getDefaultCfg()`)
  xc : XCorrState          -- `this.xCorr`
  bufferSize : ℕ
  farEndBuffer : ℕ → ℝ
  writePos : ℕ
  lastDelay : ℕ

/-- The `TimeAlignedSubtractStrategy` constructor (source lines 340-353). -/
noncomputable def tasInit (sr : ℕ) : TASState :=
  { config := xcorrDefaultCfg, xc := xcorrInit sr xcorrDefaultCfg,
    bufferSize := msToSamples sr xcorrDefaultCfg.echoTimeWindowSizeMs,
    farEndBuffer := fun _ => 0, writePos := 0, lastDelay := 0 }

/-- One iteration of the far-end history writes (source lines 399-402). -/
noncomputable def tasWriteStep (B : ℕ) (far : ℕ → ℝ) (a : (ℕ → ℝ) × ℕ) (i : ℕ) :
    (ℕ → ℝ) × ℕ :=
  (Function.update a.1 a.2 (far i), (a.2 + 1) % B)

/-- `TimeAlignedSubtractStrategy.onFrame` (source lines 396-434).  Until the
estimator locks, the output is muted.  Once locked, line 410 reads the current
accepted delay, but lines 411-414 only copy it into `lastDelay` when it
differs from the latched value by more than 48 samples (the "delay jumped"
log), and the read offset of lines 418-419 is built from `lastDelay`, clamped
to `bufferSize - 1`.  The JS read index
`(writePos - nSamples - clampedDelay + bufferSize * 5) % bufferSize` is
nonnegative (hence equal to the `ℕ` rendering below) whenever
`nSamples + clampedDelay ≤ writePos + 5 * bufferSize`. -/
noncomputable def tasOnFrame (st : TASState) (nSamples : ℕ) (near far : ℕ → ℝ) :
    TASState × List ℝ :=
  let xc' := addFrame st.xc nSamples near far
  let wres := (List.range nSamples).foldl (tasWriteStep st.bufferSize far)
    (st.farEndBuffer, st.writePos)
  if xc'.foundXC = false then
    ({ st with xc := xc', farEndBuffer := wres.1, writePos := wres.2 },
     List.replicate nSamples 0)
  else
    let delay := xc'.delay
    let lastDelay' := if 48 < max (delay - st.lastDelay) (st.lastDelay - delay)
      then delay else st.lastDelay
    let clampedDelay := min lastDelay' (st.bufferSize - 1)
    let readStart := (wres.2 + 5 * st.bufferSize - nSamples - clampedDelay)
      % st.bufferSize
    ({ st with xc := xc', farEndBuffer := wres.1, writePos := wres.2,
               lastDelay := lastDelay' },
     (List.range nSamples).map
       (fun i => near i - st.config.echoAttenuation
         * wres.1 ((readStart + i) % st.bufferSize)))

/-! Helper lemmas for claim C1. -/

theorem tasWriteLoop_writePos (B : ℕ) (far : ℕ → ℝ) (l : List ℕ) :
    ∀ (buf : ℕ → ℝ) (w : ℕ), w < B →
      (l.foldl (tasWriteStep B far) (buf, w)).2 = (w + l.length) % B := by
  induction l with
  | nil =>
      intro buf w hw
      simp [Nat.mod_eq_of_lt hw]
  | cons x xs ih =>
      intro buf w hw
      have hB : 0 < B := Nat.lt_of_le_of_lt (Nat.zero_le _) hw
      rw [List.foldl_cons]
      have hstep : tasWriteStep B far (buf, w) x
          = (Function.update buf w (far x), (w + 1) % B) := rfl
      rw [hstep, ih _ _ (Nat.mod_lt _ hB), Nat.mod_add_mod]
      congr 1
      simp [List.length_cons]
      omega

theorem tas_readIdx (B w n c i : ℕ) (hB : 0 < B) (hn : n ≤ 4 * B) (hc : c ≤ B - 1) :
    (((w + n) % B + 5 * B - n - c) % B + i) % B = (w + i + 5 * B - c) % B := by
  have h1 : ∀ X : ℕ, X + 5 * B - n - c = X + (5 * B - n - c) := by
    intro X; omega
  rw [h1, Nat.mod_add_mod (w + n) B (5 * B - n - c),
    Nat.mod_add_mod (w + n + (5 * B - n - c)) B i]
  congr 1
  omega

theorem range_map_getD (n i : ℕ) (f : ℕ → ℝ) (hi : i < n) :
    ((List.range n).map f).getD i 0 = f i := by
  rw [List.getD_eq_getElem?_getD, List.getElem?_map, List.getElem?_range hi]
  rfl

/-- C1 (amended): once the estimator has locked, `onFrame` subtracts
`echoAttenuation` times the far-end history sample read at an offset of the
*latched* delay `lastDelay` — refreshed to the estimator's current accepted
delay only when the two differ by more than 48 samples, and clamped to
`bufferSize - 1` — behind the position where that output sample's own far-end
sample was just written; it is not in general the estimator's current
`getDelaySamples()` value. -/
theorem tas_onFrame_uses_latched_delay (st : TASState) (nSamples : ℕ)
    (near far : ℕ → ℝ) (hB : 0 < st.bufferSize) (hwp : st.writePos < st.bufferSize)
    (hn : nSamples ≤ 4 * st.bufferSize)
    (hlock : (addFrame st.xc nSamples near far).foundXC = true)
    (i : ℕ) (hi : i < nSamples) :
    (tasOnFrame st nSamples near far).1.lastDelay
        = (if 48 < max ((addFrame st.xc nSamples near far).delay - st.lastDelay)
                      (st.lastDelay - (addFrame st.xc nSamples near far).delay)
           then (addFrame st.xc nSamples near far).delay
           else st.lastDelay) ∧
    (tasOnFrame st nSamples near far).2.getD i 0
      = near i - st.config.echoAttenuation
        * (tasOnFrame st nSamples near far).1.farEndBuffer
            ((st.writePos + i + 5 * st.bufferSize
              - min (tasOnFrame st nSamples near far).1.lastDelay (st.bufferSize - 1))
              % st.bufferSize) := by
  have hfold := tasWriteLoop_writePos st.bufferSize far (List.range nSamples)
    st.farEndBuffer st.writePos hwp
  rw [List.length_range] at hfold
  simp only [tasOnFrame, hlock, Bool.true_eq_false, if_false]
  refine ⟨trivial, ?_⟩
  rw [range_map_getD nSamples i _ hi, hfold]
  rw [tas_readIdx st.bufferSize st.writePos nSamples _ i hB hn (min_le_right _ _)]

/-- Concrete estimator state for the C1 counterexample: locked, current
accepted delay 12, ring of 16 samples. -/
noncomputable def tasCexXc : XCorrState :=
  { xcorrWitOnes with
    bufferSize := 16, xcorrWindowSize := 4,
    nearEndBuffer := (fun _ => 0), farEndBuffer := (fun _ => 0),
    delay := 12, foundXC := true }

noncomputable def tasCexState : TASState :=
  { config := { xcorrDefaultCfg with echoAttenuation := 1 }, xc := tasCexXc,
    bufferSize := 16, farEndBuffer := (fun n => if n = 4 then 3 else 0),
    writePos := 0, lastDelay := 0 }

theorem list_range_one : List.range 1 = [0] := rfl

/-- The estimator stays locked through the counterexample frame (the frame
counter 1 stays below the update interval 1000, so `updateDelay` never runs). -/
theorem tasCex_lock : (addFrame tasCexXc 1 tasCexNear tasCexFar).foundXC = true := by
  norm_num [addFrame, xcorrWriteLoop, tasCexXc, xcorrWitOnes, list_range_one]

/-- The estimator's accepted delay stays 12 through the counterexample frame. -/
theorem tasCex_delay : (addFrame tasCexXc 1 tasCexNear tasCexFar).delay = 12 := by
  norm_num [addFrame, xcorrWriteLoop, tasCexXc, xcorrWitOnes, list_range_one]

noncomputable def tasCexNear : ℕ → ℝ := fun _ => 5

noncomputable def tasCexFar : ℕ → ℝ := fun _ => 7

/-- C1 counterexample: with the estimator locked at a current accepted delay
of 12 but `lastDelay` still 0 (a drift of at most 48 samples never updates the
latch), the produced output sample is `5 - 1*7 = -2`, while the claimed rule —
subtract the far-end history read at an offset of the estimator's *current*
`getDelaySamples()` behind the just-written far-end sample — would give
`5 - 1*3 = 2`.  The claim is false as stated. -/
theorem tas_current_delay_counterexample :
    ¬ ((tasOnFrame tasCexState 1 tasCexNear tasCexFar).2.getD 0 0
        = tasCexNear 0 - tasCexState.config.echoAttenuation
          * (tasOnFrame tasCexState 1 tasCexNear tasCexFar).1.farEndBuffer
              ((tasCexState.writePos + 0 + 5 * tasCexState.bufferSize
                - (tasOnFrame tasCexState 1 tasCexNear tasCexFar).1.xc.delay)
                % tasCexState.bufferSize)) := by
  intro hclaim
  have heval : (tasOnFrame tasCexState 1 tasCexNear tasCexFar).2.getD 0 0 = -2 := by
    norm_num [tasOnFrame, tasCex_lock, tasCex_delay, tasWriteStep, tasCexState,
      tasCexNear, tasCexFar, xcorrDefaultCfg, list_range_one, Function.update_apply,
      Nat.max_zero, Nat.sub_zero, Nat.zero_sub]
  have hrhs : tasCexNear 0 - tasCexState.config.echoAttenuation
      * (tasOnFrame tasCexState 1 tasCexNear tasCexFar).1.farEndBuffer
          ((tasCexState.writePos + 0 + 5 * tasCexState.bufferSize
            - (tasOnFrame tasCexState 1 tasCexNear tasCexFar).1.xc.delay)
            % tasCexState.bufferSize) = 2 := by
    norm_num [tasOnFrame, tasCex_lock, tasCex_delay, tasWriteStep, tasCexState,
      tasCexNear, tasCexFar, xcorrDefaultCfg, list_range_one, Function.update_apply,
      Nat.max_zero, Nat.sub_zero, Nat.zero_sub]
  rw [heval, hrhs] at hclaim
  norm_num at hclaim

theorem tas_onFrame_uses_latched_delay_witness :
    (0 < tasCexState.bufferSize ∧ tasCexState.writePos < tasCexState.bufferSize ∧
      1 ≤ 4 * tasCexState.bufferSize ∧
      (addFrame tasCexState.xc 1 tasCexNear tasCexFar).foundXC = true ∧ 0 < 1) ∧
    (tasOnFrame tasCexState 1 tasCexNear tasCexFar).1.lastDelay
        = (if 48 < max ((addFrame tasCexState.xc 1 tasCexNear tasCexFar).delay
                - tasCexState.lastDelay)
              (tasCexState.lastDelay
                - (addFrame tasCexState.xc 1 tasCexNear tasCexFar).delay)
           then (addFrame tasCexState.xc 1 tasCexNear tasCexFar).delay
           else tasCexState.lastDelay) ∧
    (tasOnFrame tasCexState 1 tasCexNear tasCexFar).2.getD 0 0
      = tasCexNear 0 - tasCexState.config.echoAttenuation
        * (tasOnFrame tasCexState 1 tasCexNear tasCexFar).1.farEndBuffer
            ((tasCexState.writePos + 0 + 5 * tasCexState.bufferSize
              - min (tasOnFrame tasCexState 1 tasCexNear tasCexFar).1.lastDelay
                  (tasCexState.bufferSize - 1))
              % tasCexState.bufferSize) :=
  ⟨⟨by decide, by decide, by decide, tasCex_lock, by decide⟩,
   (tas_onFrame_uses_latched_delay tasCexState 1 tasCexNear tasCexFar
      (by decide) (by decide) (by decide) tasCex_lock 0 (by decide)).1,
   (tas_onFrame_uses_latched_delay tasCexState 1 tasCexNear tasCexFar
      (by decide) (by decide) (by decide) tasCex_lock 0 (by decide)).2⟩

end FauxEC
